import Mathlib

/-!
Verification of the callguard governance core.

Shallow embedding, in Lean 4, of the policy-evaluation core of the
`callguard` repository: the tool-call envelope data model
(`src/callguard/envelope.py`), the hook and contract models
(`src/callguard/hooks.py`, `src/callguard/contracts.py`), the session
counters (`src/callguard/session.py` together with the async counter
interface the pipeline consumes), the YAML bundle loader
(`src/callguard/yaml_engine/loader.py`), the YAML expression evaluator
(exercised by `tests/test_yaml_engine/test_evaluator.py`), and the
governance pipeline (`src/callguard/pipeline.py`).

Python dictionaries are modelled as association lists, machine-level
details (UUIDs, wall-clock timestamps) are carried as plain data, and
`async` code is modelled by direct sequential evaluation (the pipeline
awaits every suspending check in order, so one call is a sequential
computation).  Python exceptions escaping a function are modelled with
`Except`.
-/

namespace Callguard

/-! ## JSON/YAML-compatible values

`tool_input` in `envelope.py` is `dict[str, Any]` holding JSON-compatible
data; the YAML engine evaluates operators over the same values.  Numbers
are modelled as rationals, covering Python `int` and `float` operands. -/

inductive Value where
  | vnull : Value
  | vbool (b : Bool) : Value
  | vnum (q : Rat) : Value
  | vstr (s : String) : Value
  | vlist (vs : List Value) : Value
  | vdict (fs : List (String × Value)) : Value

mutual

/-- Python `==` on scalars and containers, restricted to the value model:
equality is structural, and values of different shapes compare unequal. -/
def Value.beq : Value → Value → Bool
  | .vnull, .vnull => true
  | .vbool p, .vbool q => p == q
  | .vnum p, .vnum q => p == q
  | .vstr p, .vstr q => p == q
  | .vlist ps, .vlist qs => Value.beqElems ps qs
  | .vdict ps, .vdict qs => Value.beqEntries ps qs
  | _, _ => false

/-- The `==` on two lists of values, position by position. -/
def Value.beqElems : List Value → List Value → Bool
  | p :: ps, q :: qs => Value.beq p q && Value.beqElems ps qs
  | [], [] => true
  | _ :: _, [] => false
  | [], _ :: _ => false

/-- The `==` on two dictionaries in entry order, key and value alike. -/
def Value.beqEntries : List (String × Value) → List (String × Value) → Bool
  | (ka, va) :: ps, (kb, vb) :: qs =>
      ka == kb && Value.beq va vb && Value.beqEntries ps qs
  | [], [] => true
  | _ :: _, [] => false
  | [], _ :: _ => false

end

/-- First-match lookup in an association list, like `dict.get` on the
insertion-ordered Python dicts produced by the YAML parser. -/
def lookupField (fs : List (String × Value)) (k : String) : Option Value :=
  match fs with
  | [] => none
  | (k', v) :: rest => if k' == k then some v else lookupField rest k

/-! ## Envelope data model (`envelope.py` and spec section 3) -/

/-- The `SideEffect` enum from `envelope.py`: classification of a tool call's
real-world impact. -/
inductive SideEffect where
  | none : SideEffect
  | idempotent : SideEffect
  | reversible : SideEffect
  | irreversible : SideEffect
deriving DecidableEq

/-- Principal attached to an envelope (spec section 3; exercised by
`tests/test_principal.py`): all fields optional, `claims` defaults empty. -/
structure Principal where
  user_id : Option String := Option.none
  service_id : Option String := Option.none
  org_id : Option String := Option.none
  role : Option String := Option.none
  ticket_ref : Option String := Option.none
  claims : List (String × Value) := []

/-- The immutable per-call record (`ToolEnvelope` in `envelope.py`,
extended with the `environment` and `principal` fields of the spec's
envelope model, which the YAML evaluator's selectors read). -/
structure Envelope where
  tool_name : String
  tool_input : List (String × Value)
  call_id : String := ""
  session_id : Option String := Option.none
  side_effect : SideEffect := SideEffect.none
  environment : String := "production"
  principal : Option Principal := Option.none

/-! ## Selector resolution (spec section 4.6.2)

Modelled from the spec: the evaluator module
(`callguard/yaml_engine/evaluator.py`) is referenced by
`tests/test_yaml_engine/test_evaluator.py` but its source is not part of
the snapshot; selector resolution follows the spec's selector grammar
(`environment`, `tool.name`, `args.<dotted.path>`, `principal.<field>`,
`principal.claims.<key>`, `output.text`) and the spec's missing-value
semantics (a selector that does not resolve to a present, non-null value
is absent). -/

/-- Split a character list on a separator character (the `.` of dotted
selector paths); `"a.b"` becomes `["a", "b"]`. -/
def splitChars (sep : Char) : List Char → List (List Char)
  | [] => [[]]
  | c :: cs =>
      match splitChars sep cs with
      | [] => [[]]
      | g :: gs => if c = sep then [] :: g :: gs else (c :: g) :: gs

/-- Split a string on `.`, as `selector.split(".")` does in Python. -/
def splitOnDot (s : String) : List String :=
  (splitChars '.' s.data).map String.mk

/-- Python `str.startswith` over character lists. -/
def charsStartWith : List Char → List Char → Bool
  | _, [] => true
  | [], _ :: _ => false
  | c :: cs, p :: ps => c = p && charsStartWith cs ps

/-- Python `needle in haystack` (contiguous substring containment). -/
def charsContain : List Char → List Char → Bool
  | [], pat => pat.isEmpty
  | h :: t, pat => charsStartWith (h :: t) pat || charsContain t pat

/-- Python `str.startswith`. -/
def strStartsWith (s pre : String) : Bool := charsStartWith s.data pre.data

/-- Python `str.endswith`. -/
def strEndsWith (s suf : String) : Bool := charsStartWith s.data.reverse suf.data.reverse

/-- Python `needle in haystack` on strings. -/
def strContains (haystack needle : String) : Bool := charsContain haystack.data needle.data

/-- Walk a dotted path through nested dictionaries; missing intermediate
keys and non-dict intermediates are misses. -/
def Value.walk : Value → List String → Option Value
  | v, [] => some v
  | .vdict fs, k :: rest =>
      match lookupField fs k with
      | some v => v.walk rest
      | Option.none => Option.none
  | _, _ :: _ => Option.none

/-- Treat a resolved `null` as absent (spec: "present, non-null value"). -/
def dropNull : Option Value → Option Value
  | some .vnull => Option.none
  | v => v

/-- Resolve a principal field selector. -/
def resolvePrincipal (p : Principal) : List String → Option Value
  | ["user_id"] => (p.user_id).map Value.vstr
  | ["service_id"] => (p.service_id).map Value.vstr
  | ["org_id"] => (p.org_id).map Value.vstr
  | ["role"] => (p.role).map Value.vstr
  | ["ticket_ref"] => (p.ticket_ref).map Value.vstr
  | "claims" :: k :: [] => lookupField p.claims k
  | _ => Option.none

/-- Resolve a selector against an envelope and (for post-contracts) the
tool output text.  Unresolved selectors are absent (`Option.none`). -/
def resolveSelector (env : Envelope) (outputText : Option String) (sel : String) : Option Value :=
  match splitOnDot sel with
  | ["environment"] => some (.vstr env.environment)
  | ["tool", "name"] => some (.vstr env.tool_name)
  | ["output", "text"] => outputText.map Value.vstr
  | "args" :: path => dropNull ((Value.vdict env.tool_input).walk path)
  | "principal" :: path =>
      match env.principal with
      | some p => dropNull (resolvePrincipal p path)
      | Option.none => Option.none
  | _ => Option.none

/-! ## Expression language (spec section 4.6.2)

Modelled from the spec: the evaluator module
(`callguard/yaml_engine/evaluator.py`) is not part of the snapshot (only
its test suite is); the operator grammar, the typed operator discipline,
the absent-is-false rule and the fail-closed `PolicyError` composition
below follow the spec's words, and agree with every concrete case in
`tests/test_yaml_engine/test_evaluator.py`. -/

/-- Operators of a leaf expression `{selector: {operator: operand}}`. -/
inductive Operator where
  | equalsOp (v : Value) : Operator
  | notEqualsOp (v : Value) : Operator
  | isIn (vs : List Value) : Operator
  | notIn (vs : List Value) : Operator
  | containsOp (s : String) : Operator
  | containsAny (ss : List String) : Operator
  | startsWith (s : String) : Operator
  | endsWith (s : String) : Operator
  | matches (pat : String) : Operator
  | matchesAny (pats : List String) : Operator
  | gt (q : Rat) : Operator
  | gte (q : Rat) : Operator
  | lt (q : Rat) : Operator
  | lte (q : Rat) : Operator
  | existsOp (b : Bool) : Operator

mutual

/-- Expression tree: a leaf, or a boolean node.  `allOf`, `anyOf`, `notOf`
embed the YAML keys `all`, `any`, `not`; child lists are a mutual
inductive so that evaluation is structurally recursive. -/
inductive Expr where
  | leaf (sel : String) (op : Operator) : Expr
  | allOf (es : ExprList) : Expr
  | anyOf (es : ExprList) : Expr
  | notOf (e : Expr) : Expr

/-- A list of sub-expressions under an `all` or `any` node. -/
inductive ExprList where
  | nil : ExprList
  | cons (e : Expr) (es : ExprList) : ExprList

end

/-- The evaluator's three-valued result: the `_PolicyError` sentinel is
"an evaluation-internal value distinct from both `true` and `false`"
(spec section 4.6.2; design note "PolicyError sentinel"). -/
inductive EvalResult where
  | tru : EvalResult
  | fls : EvalResult
  | err (msg : String) : EvalResult
deriving DecidableEq

def EvalResult.ofBool (b : Bool) : EvalResult := if b then .tru else .fls

def EvalResult.isError : EvalResult → Bool
  | .err _ => true
  | _ => false

/-- Is the value a string? (string operators are typed) -/
def Value.isStr : Value → Bool
  | .vstr _ => true
  | _ => false

/-- Is the value numeric (`int` or `float`)? (numeric comparators are typed) -/
def Value.isNum : Value → Bool
  | .vnum _ => true
  | _ => false

/-- Does the operator require a string value? -/
def Operator.isStringOp : Operator → Bool
  | .containsOp _ | .containsAny _ | .startsWith _ | .endsWith _
  | .matches _ | .matchesAny _ => true
  | _ => false

/-- Does the operator require a numeric value? -/
def Operator.isNumericOp : Operator → Bool
  | .gt _ | .gte _ | .lt _ | .lte _ => true
  | _ => false

/-- Evaluate one leaf against a resolved selector value.
`rm pat text` abstracts `re.search` (the host regex engine).

Modelled from the spec: `exists` inspects absence directly; every other
comparison against an absent value yields `false`; a string operator on a
present non-string, or a numeric comparator on a present non-number,
yields a `PolicyError`. -/
def evalLeaf (rm : String → String → Bool) (v? : Option Value) (op : Operator) : EvalResult :=
  match op with
  | .existsOp b => .ofBool (v?.isSome == b)
  | _ =>
    match v? with
    | Option.none => .fls
    | some v =>
      match op with
      | .equalsOp w => .ofBool (Value.beq v w)
      | .notEqualsOp w => .ofBool (!Value.beq v w)
      | .isIn ws => .ofBool (ws.any (fun w => Value.beq v w))
      | .notIn ws => .ofBool (!ws.any (fun w => Value.beq v w))
      | .containsOp s =>
          match v with
          | .vstr t => .ofBool (strContains t s)
          | _ => .err "Type mismatch: contains requires a string value"
      | .containsAny ss =>
          match v with
          | .vstr t => .ofBool (ss.any (fun s => strContains t s))
          | _ => .err "Type mismatch: contains_any requires a string value"
      | .startsWith s =>
          match v with
          | .vstr t => .ofBool (strStartsWith t s)
          | _ => .err "Type mismatch: starts_with requires a string value"
      | .endsWith s =>
          match v with
          | .vstr t => .ofBool (strEndsWith t s)
          | _ => .err "Type mismatch: ends_with requires a string value"
      | .matches pat =>
          match v with
          | .vstr t => .ofBool (rm pat t)
          | _ => .err "Type mismatch: matches requires a string value"
      | .matchesAny pats =>
          match v with
          | .vstr t => .ofBool (pats.any (fun pat => rm pat t))
          | _ => .err "Type mismatch: matches_any requires a string value"
      | .gt q =>
          match v with
          | .vnum x => .ofBool (decide (q < x))
          | _ => .err "Type mismatch: gt requires a numeric value"
      | .gte q =>
          match v with
          | .vnum x => .ofBool (decide (q ≤ x))
          | _ => .err "Type mismatch: gte requires a numeric value"
      | .lt q =>
          match v with
          | .vnum x => .ofBool (decide (x < q))
          | _ => .err "Type mismatch: lt requires a numeric value"
      | .lte q =>
          match v with
          | .vnum x => .ofBool (decide (x ≤ q))
          | _ => .err "Type mismatch: lte requires a numeric value"
      | .existsOp b => .ofBool (true == b)

mutual

/-- The `evaluate_expression`.  Modelled from the spec: boolean nodes compose
with fail-closed semantics — a `PolicyError` from any child propagates
through `all`, `any` and `not`, never silently coerced to `false`. -/
def evaluate (rm : String → String → Bool) (env : Envelope) (outputText : Option String) :
    Expr → EvalResult
  | .leaf sel op => evalLeaf rm (resolveSelector env outputText sel) op
  | .allOf es => evalAllList rm env outputText es
  | .anyOf es => evalAnyList rm env outputText es
  | .notOf e =>
      match evaluate rm env outputText e with
      | .err m => .err m
      | .tru => .fls
      | .fls => .tru

/-- Conjunction over children: an error from any child dominates. -/
def evalAllList (rm : String → String → Bool) (env : Envelope) (outputText : Option String) :
    ExprList → EvalResult
  | .nil => .tru
  | .cons e rest =>
      match evaluate rm env outputText e, evalAllList rm env outputText rest with
      | .err m, _ => .err m
      | _, .err m => .err m
      | .tru, r => r
      | .fls, _ => .fls

/-- Disjunction over children: an error from any child dominates. -/
def evalAnyList (rm : String → String → Bool) (env : Envelope) (outputText : Option String) :
    ExprList → EvalResult
  | .nil => .fls
  | .cons e rest =>
      match evaluate rm env outputText e, evalAnyList rm env outputText rest with
      | .err m, _ => .err m
      | _, .err m => .err m
      | .fls, r => r
      | .tru, _ => .tru

end

/-! ## Verdicts, hooks and contracts (`contracts.py`, `hooks.py`)

`pipeline.py` imports `HookResult` from `callguard.hooks`; the snapshot's
`hooks.py` declares the same three-way decision under the name
`HookAction` (`ALLOW`/`BLOCK`/`MODIFY`), and the spec's hook model is
`action ∈ {allow, deny, modify}`.  `HookResult` below is the variant the
pipeline consumes, modelled from the spec: members `allow`, `deny`,
`modify`. -/

inductive HookResult where
  | allow : HookResult
  | deny : HookResult
  | modify : HookResult
deriving DecidableEq

/-- The `HookResult.value`, the wire string of the enum member. -/
def HookResult.value : HookResult → String
  | .allow => "allow"
  | .deny => "deny"
  | .modify => "modify"

/-- The `HookDecision` from `hooks.py`: `modify` carries `modified_input`. -/
structure HookDecision where
  result : HookResult
  reason : String := ""
  modified_input : Option (List (String × Value)) := Option.none

/-- A registered before-hook: the callback's `__name__`, its target tool
(`"*"` for all), the optional `when` predicate, and the callback
(`types.py`, `HookRegistration`). -/
structure HookReg where
  name : String
  tool : String := "*"
  whenPred : Option (Envelope → Bool) := Option.none
  callback : Envelope → HookDecision

/-- The `Verdict` from `contracts.py`. -/
structure Verdict where
  passed : Bool
  message : String := ""

/-- The `Verdict.pass_()`. -/
def Verdict.pass : Verdict := { passed := true }

/-- The `Verdict.fail(message)`. -/
def Verdict.fail (message : String) : Verdict := { passed := false, message := message }

/-- A registered precondition contract (`@precondition(tool_name)`):
callable name, target tool, body `(envelope) → Verdict`. -/
structure PreContract where
  name : String
  tool : String := "*"
  body : Envelope → Verdict

/-- A registered postcondition contract (`@postcondition(tool_name)`):
body `(envelope, tool_response) → Verdict`; the opaque tool response is
carried as a string. -/
structure PostContract where
  name : String
  tool : String := "*"
  body : Envelope → String → Verdict

/-- A registered session contract (`@session_contract`): body
`(session) → Verdict`, not bound to a tool. -/
structure SessionContract (σ : Type) where
  name : String
  body : σ → Verdict

/-! ## Session counters (`session.py` and spec section 4.4)

Modelled from the spec: `pre_execute` awaits `session.attempt_count()`,
`session.execution_count()` and `session.tool_execution_count(name)`;
the `Session` dataclass in the snapshot's `session.py` carries only the
raw call history (`tool_calls`, `record_call`), so the async counter
interface the pipeline consumes is modelled from the spec's words:
`attempt_count()` counts reads-or-attempts regardless of outcome,
`execution_count()` only allowed calls that ran,
`tool_execution_count(name)` per-tool executions, and append-record is
atomic (modelled as a single-step pure update of the history). -/

/-- One recorded call: which tool was attempted and whether the attempt
was allowed to execute. -/
structure CallRecord where
  tool_name : String
  executed : Bool

/-- Per-session state: the ordered call history. -/
structure Session where
  records : List CallRecord := []

/-- Atomic append of one record (spec: "Append-record is atomic"). -/
def Session.append_record (s : Session) (r : CallRecord) : Session :=
  { records := s.records ++ [r] }

/-- Total attempts, regardless of outcome. -/
def Session.attempt_count (s : Session) : Nat :=
  s.records.length

/-- Only allowed calls that ran. -/
def Session.execution_count (s : Session) : Nat :=
  (s.records.filter (fun r => r.executed)).length

/-- Per-tool executions. -/
def Session.tool_execution_count (s : Session) (name : String) : Nat :=
  (s.records.filter (fun r => r.executed && r.tool_name == name)).length

/-! ## Guard state and dispatch (spec sections 4.2 and 4.8)

Modelled from the spec: the `CallGuard` facade the pipeline holds
(`self._guard`) is not part of the snapshot; per the spec it stores
hooks and contracts by kind and "dispatches by exact tool-name match
with fallback to wildcard", preserving registration order. -/

/-- Session limits consumed by the pipeline (`self._guard.limits`). -/
structure Limits where
  max_attempts : Nat
  max_tool_calls : Nat
  max_calls_per_tool : List (String × Nat) := []

/-- Lookup in `max_calls_per_tool` (Python `in` / indexing on the dict). -/
def Limits.capFor (l : Limits) (tool : String) : Option Nat :=
  match l.max_calls_per_tool.find? (fun p => p.1 == tool) with
  | some p => some p.2
  | Option.none => Option.none

/-- The guard state the pipeline reads. -/
structure Guard where
  limits : Limits
  before_hooks : List HookReg := []
  preconditions : List PreContract := []
  session_contracts : List (SessionContract Session) := []
  postconditions : List PostContract := []

/-- Tool dispatch: exact tool-name match with fallback to wildcard. -/
def toolApplies (registered tool : String) : Bool :=
  registered == "*" || registered == tool

/-- The `guard.get_hooks("before", envelope)`. -/
def Guard.get_before_hooks (g : Guard) (env : Envelope) : List HookReg :=
  g.before_hooks.filter (fun h => toolApplies h.tool env.tool_name)

/-- The `guard.get_preconditions(envelope)`. -/
def Guard.get_preconditions (g : Guard) (env : Envelope) : List PreContract :=
  g.preconditions.filter (fun c => toolApplies c.tool env.tool_name)

/-- The `guard.get_session_contracts()`. -/
def Guard.get_session_contracts (g : Guard) : List (SessionContract Session) :=
  g.session_contracts

/-- The `guard.get_postconditions(envelope)`. -/
def Guard.get_postconditions (g : Guard) (env : Envelope) : List PostContract :=
  g.postconditions.filter (fun c => toolApplies c.tool env.tool_name)

/-! ## The governance pipeline (`pipeline.py`) -/

/-- An entry of `hooks_evaluated` (`pipeline.py` lines 80–85). -/
structure HookRecord where
  name : String
  result : String
  reason : String
deriving DecidableEq

/-- An entry of `contracts_evaluated` (`pipeline.py` lines 103–108). -/
structure ContractRecord where
  name : String
  type : String
  passed : Bool
  message : String
deriving DecidableEq

/-- The `PreDecision` dataclass. -/
structure PreDecision where
  action : String
  reason : Option String := Option.none
  decision_source : Option String := Option.none
  decision_name : Option String := Option.none
  hooks_evaluated : List HookRecord := []
  contracts_evaluated : List ContractRecord := []
deriving DecidableEq

/-- The `PostDecision` dataclass. -/
structure PostDecision where
  tool_success : Bool
  postconditions_passed : Bool
  warnings : List String := []
  contracts_evaluated : List ContractRecord := []
deriving DecidableEq

/-- The hook record built at `pipeline.py` lines 80–84. -/
def hookRecordOf (h : HookReg) (d : HookDecision) : HookRecord :=
  { name := h.name, result := d.result.value, reason := d.reason }

/-- Does the `when` predicate skip this hook? (`pipeline.py` lines 74–75:
`if hook_reg.when and not hook_reg.when(envelope): continue`). -/
def hookSkipped (env : Envelope) (h : HookReg) : Bool :=
  match h.whenPred with
  | some w => !(w env)
  | Option.none => false

/-- Step 2 of `pre_execute`: the before-hook loop.  `Except.error` models
the early `return` of a deny decision; `contractsEv` is the (still empty)
`contracts_evaluated` accumulator captured by that `return`. -/
def runBeforeHooks (env : Envelope) (contractsEv : List ContractRecord) :
    List HookReg → List HookRecord → Except PreDecision (List HookRecord)
  | [], acc => .ok acc
  | h :: rest, acc =>
      if hookSkipped env h then
        runBeforeHooks env contractsEv rest acc
      else
        let d := h.callback env
        let rec' := hookRecordOf h d
        let acc' := acc ++ [rec']
        if d.result = HookResult.deny then
          .error { action := "deny", reason := some d.reason,
                   decision_source := some "hook", decision_name := some rec'.name,
                   hooks_evaluated := acc', contracts_evaluated := contractsEv }
        else
          runBeforeHooks env contractsEv rest acc'

/-- The contract record built for a precondition verdict. -/
def preRecordOf (env : Envelope) (c : PreContract) : ContractRecord :=
  { name := c.name, type := "precondition",
    passed := (c.body env).passed, message := (c.body env).message }

/-- Step 3 of `pre_execute`: the precondition loop. -/
def runPreconditions (env : Envelope) (hooksEv : List HookRecord) :
    List PreContract → List ContractRecord → Except PreDecision (List ContractRecord)
  | [], acc => .ok acc
  | c :: rest, acc =>
      let v := c.body env
      let rec' := preRecordOf env c
      let acc' := acc ++ [rec']
      if v.passed then
        runPreconditions env hooksEv rest acc'
      else
        .error { action := "deny", reason := some v.message,
                 decision_source := some "precondition", decision_name := some rec'.name,
                 hooks_evaluated := hooksEv, contracts_evaluated := acc' }

/-- The contract record built for a session-contract verdict. -/
def sessionRecordOf (s : Session) (c : SessionContract Session) : ContractRecord :=
  { name := c.name, type := "session_contract",
    passed := (c.body s).passed, message := (c.body s).message }

/-- Step 4 of `pre_execute`: the session-contract loop. -/
def runSessionContracts (s : Session) (hooksEv : List HookRecord) :
    List (SessionContract Session) → List ContractRecord → Except PreDecision (List ContractRecord)
  | [], acc => .ok acc
  | c :: rest, acc =>
      let v := c.body s
      let rec' := sessionRecordOf s c
      let acc' := acc ++ [rec']
      if v.passed then
        runSessionContracts s hooksEv rest acc'
      else
        .error { action := "deny", reason := some v.message,
                 decision_source := some "session_contract", decision_name := some rec'.name,
                 hooks_evaluated := hooksEv, contracts_evaluated := acc' }

/-- The `GovernancePipeline.pre_execute(envelope, session)`, with the awaits
of the async source flattened into sequential evaluation. -/
def pre_execute (g : Guard) (env : Envelope) (s : Session) : PreDecision :=
  -- 1. Attempt limit
  if s.attempt_count > g.limits.max_attempts then
    let ma := g.limits.max_attempts
    { action := "deny",
      reason := some (s!"Attempt limit reached ({ma}). " ++
        "Agent may be stuck in a retry loop. Stop and reassess."),
      decision_source := some "attempt_limit", decision_name := some "max_attempts",
      hooks_evaluated := [], contracts_evaluated := [] }
  else
    -- 2. Before hooks
    match runBeforeHooks env [] (g.get_before_hooks env) [] with
    | .error d => d
    | .ok hooksEv =>
      -- 3. Preconditions
      match runPreconditions env hooksEv (g.get_preconditions env) [] with
      | .error d => d
      | .ok contractsEv =>
        -- 4. Session contracts
        match runSessionContracts s hooksEv g.get_session_contracts contractsEv with
        | .error d => d
        | .ok contractsEv' =>
          -- 5. Execution limits
          if s.execution_count ≥ g.limits.max_tool_calls then
            let mt := g.limits.max_tool_calls
            { action := "deny",
              reason := some (s!"Execution limit reached ({mt} calls). " ++
                "Summarize progress and stop."),
              decision_source := some "operation_limit", decision_name := some "max_tool_calls",
              hooks_evaluated := hooksEv, contracts_evaluated := contractsEv' }
          else
            -- Per-tool limits
            match g.limits.capFor env.tool_name with
            | some cap =>
                if s.tool_execution_count env.tool_name ≥ cap then
                  let tn := env.tool_name
                  let tc := s.tool_execution_count env.tool_name
                  { action := "deny",
                    reason := some s!"Per-tool limit: {tn} called {tc} times (limit: {cap}).",
                    decision_source := some "operation_limit",
                    decision_name := some ("max_calls_per_tool:" ++ env.tool_name),
                    hooks_evaluated := hooksEv, contracts_evaluated := contractsEv' }
                else
                  -- 6. All checks passed
                  { action := "allow",
                    hooks_evaluated := hooksEv, contracts_evaluated := contractsEv' }
            | Option.none =>
                { action := "allow",
                  hooks_evaluated := hooksEv, contracts_evaluated := contractsEv' }

/-! ## `post_execute` (`pipeline.py` lines 180–228)

The failing-verdict branch at line 205 evaluates
`envelope.side_effect in (SideEffect.PURE, SideEffect.READ)`, but the
`SideEffect` enum in `envelope.py` declares only `NONE`, `IDEMPOTENT`,
`REVERSIBLE` and `IRREVERSIBLE`; in Python the attribute access
`SideEffect.PURE` raises `AttributeError` the moment a failing verdict is
processed.  The embedding models that escape as `Except.error`. -/

/-- A Python exception escaping `post_execute`. -/
inductive PyError where
  | attributeError (msg : String) : PyError
deriving DecidableEq

/-- The `AttributeError` raised by `SideEffect.PURE` at line 205. -/
def sideEffectPureError : PyError :=
  .attributeError "type object 'SideEffect' has no attribute 'PURE'"

/-- The contract record built for a postcondition verdict. -/
def postRecordOf (env : Envelope) (response : String) (c : PostContract) : ContractRecord :=
  { name := c.name, type := "postcondition",
    passed := (c.body env response).passed, message := (c.body env response).message }

/-- Step 1 of `post_execute`: the postcondition loop.  A failing verdict
reaches line 205 and raises (see above), so warnings are never actually
appended. -/
def runPostconditions (env : Envelope) (response : String) :
    List PostContract → List ContractRecord → Except PyError (List ContractRecord)
  | [], acc => .ok acc
  | c :: rest, acc =>
      let v := c.body env response
      let acc' := acc ++ [postRecordOf env response c]
      if v.passed then
        runPostconditions env response rest acc'
      else
        .error sideEffectPureError

/-- The `GovernancePipeline.post_execute(envelope, tool_response,
tool_success)`.  After-hooks run with results ignored (no observable
effect in the model); `postconditions_passed` is computed exactly as at
line 221: `all(c["passed"] for c in contracts_evaluated) if
contracts_evaluated else True`. -/
def post_execute (g : Guard) (env : Envelope) (response : String) (tool_success : Bool) :
    Except PyError PostDecision :=
  match runPostconditions env response (g.get_postconditions env) [] with
  | .error e => .error e
  | .ok contractsEv =>
      let pcp := if contractsEv.isEmpty then true
                 else contractsEv.all (fun c => c.passed)
      .ok { tool_success := tool_success, postconditions_passed := pcp,
            warnings := [], contracts_evaluated := contractsEv }

/-! ## YAML compiler lowering (spec section 4.6.4)

Modelled from the spec: the compiler module
(`callguard/yaml_engine/compiler.py`) is imported by
`yaml_engine/__init__.py` but its source is not part of the snapshot.
Per the spec, "a `pre` contract with `then.effect = deny` becomes: if the
expression evaluates truthy (including PolicyError), return
`Verdict.fail(message or synthesized reason)`; else pass". -/

/-- Top-level truthiness of an evaluation result: a `PolicyError`
"evaluates as condition met", i.e. is treated as truthy (fail-closed). -/
def EvalResult.truthy : EvalResult → Bool
  | .tru => true
  | .fls => false
  | .err _ => true

/-- Lower a `type: pre` contract with `then.effect: deny` into the
programmatic precondition interface. -/
def compile_pre_deny (rm : String → String → Bool) (cid tool : String)
    (expr : Expr) (msg : String) : PreContract :=
  { name := cid, tool := tool,
    body := fun env =>
      if (evaluate rm env Option.none expr).truthy then Verdict.fail msg else Verdict.pass }

/-! ## Type-mismatched operator applications (claim C1) -/

/-- A leaf's operator application is type-mismatched when the selector
resolves to a present value and the operator's typing discipline rejects
it: a string operator on a non-string, or a numeric comparator on a
non-number. -/
def leafMismatch (v? : Option Value) (op : Operator) : Bool :=
  match v? with
  | some v => (op.isStringOp && !v.isStr) || (op.isNumericOp && !v.isNum)
  | Option.none => false

mutual

/-- Does the expression contain a type-mismatched operator application
(relative to the given envelope and output)? -/
def exprHasMismatch (env : Envelope) (t : Option String) : Expr → Bool
  | .leaf sel op => leafMismatch (resolveSelector env t sel) op
  | .allOf es => exprListHasMismatch env t es
  | .anyOf es => exprListHasMismatch env t es
  | .notOf e => exprHasMismatch env t e

/-- Does some member of the list contain a mismatch? -/
def exprListHasMismatch (env : Envelope) (t : Option String) : ExprList → Bool
  | .nil => false
  | .cons e es => exprHasMismatch env t e || exprListHasMismatch env t es

end

/-! ## Characterization of the pre-execution phases

Reference forms of the three loops of `pre_execute`, phrased with
`filter` (skipped checks), `takeWhile` (checks that passed) and
`dropWhile` (the first check that short-circuits, if any). -/

/-- Does this hook deny the call? -/
def hookDenies (env : Envelope) (h : HookReg) : Bool :=
  (h.callback env).result == HookResult.deny

/-- The record an evaluated hook contributes. -/
def recOfHook (env : Envelope) (h : HookReg) : HookRecord :=
  hookRecordOf h (h.callback env)

/-- Applicable before-hooks whose `when` predicate does not skip them. -/
def activeBefore (g : Guard) (env : Envelope) : List HookReg :=
  (g.get_before_hooks env).filter (fun h => !hookSkipped env h)

/-! ## SHA-256 (`hashlib.sha256` as used by `loader._compute_hash`)

A byte-level FIPS 180-4 SHA-256 over `List Nat` (one `Nat` per byte),
with 32-bit words as `Nat` reduced modulo `2^32`. -/

namespace SHA256

/-- The `2^32`, the word modulus. -/
def M32 : Nat := 4294967296

/-- Right rotation of a 32-bit word. -/
def rotr (n x : Nat) : Nat := ((x >>> n) ||| (x <<< (32 - n))) % M32

/-- The `Ch(x,y,z)`; 32-bit complement written as xor with `2^32 - 1`. -/
def ch (x y z : Nat) : Nat := (x &&& y) ^^^ ((x ^^^ (M32 - 1)) &&& z)

/-- The `Maj(x,y,z)`. -/
def maj (x y z : Nat) : Nat := (x &&& y) ^^^ (x &&& z) ^^^ (y &&& z)

/-- The `Σ₀`. -/
def bigS0 (x : Nat) : Nat := rotr 2 x ^^^ rotr 13 x ^^^ rotr 22 x

/-- The `Σ₁`. -/
def bigS1 (x : Nat) : Nat := rotr 6 x ^^^ rotr 11 x ^^^ rotr 25 x

/-- The `σ₀`. -/
def smallS0 (x : Nat) : Nat := rotr 7 x ^^^ rotr 18 x ^^^ (x >>> 3)

/-- The `σ₁`. -/
def smallS1 (x : Nat) : Nat := rotr 17 x ^^^ rotr 19 x ^^^ (x >>> 10)

/-- The 64 round constants (FIPS 180-4 §4.2.2, written in decimal). -/
def K : List Nat :=
  [1116352408, 1899447441, 3049323471, 3921009573, 961987163, 1508970993, 2453635748,
   2870763221, 3624381080, 310598401, 607225278, 1426881987, 1925078388, 2162078206,
   2614888103, 3248222580, 3835390401, 4022224774, 264347078, 604807628, 770255983,
   1249150122, 1555081692, 1996064986, 2554220882, 2821834349, 2952996808, 3210313671,
   3336571891, 3584528711, 113926993, 338241895, 666307205, 773529912, 1294757372,
   1396182291, 1695183700, 1986661051, 2177026350, 2456956037, 2730485921, 2820302411,
   3259730800, 3345764771, 3516065817, 3600352804, 4094571909, 275423344, 430227734,
   506948616, 659060556, 883997877, 958139571, 1322822218, 1537002063, 1747873779,
   1955562222, 2024104815, 2227730452, 2361852424, 2428436474, 2756734187, 3204031479,
   3329325298]

/-- The eight-word working state. -/
structure Hash8 where
  a : Nat
  b : Nat
  c : Nat
  d : Nat
  e : Nat
  f : Nat
  g : Nat
  h : Nat

/-- The initial hash values `H₀…H₇` (FIPS 180-4 §5.3.3, in decimal). -/
def initH : Hash8 :=
  ⟨1779033703, 3144134277, 1013904242, 2773480762,
   1359893119, 2600822924, 528734635, 1541459225⟩

/-- Big-endian 8-byte encoding of the 64-bit message bit length. -/
def u64be (n : Nat) : List Nat :=
  [(n >>> 56) % 256, (n >>> 48) % 256, (n >>> 40) % 256, (n >>> 32) % 256,
   (n >>> 24) % 256, (n >>> 16) % 256, (n >>> 8) % 256, n % 256]

/-- FIPS 180-4 §5.1.1 padding for a message of `len` bytes: `0x80`, zero
bytes to 56 mod 64, then the bit length. -/
def padding (len : Nat) : List Nat :=
  128 :: List.replicate ((119 - len % 64) % 64) 0 ++ u64be (8 * len)

/-- One big-endian 32-bit word from four bytes. -/
def word32 (b0 b1 b2 b3 : Nat) : Nat :=
  ((b0 % 256) <<< 24) ||| ((b1 % 256) <<< 16) ||| ((b2 % 256) <<< 8) ||| (b3 % 256)

/-- The sixteen initial schedule words of a 64-byte block. -/
def toWords : List Nat → List Nat
  | b0 :: b1 :: b2 :: b3 :: rest => word32 b0 b1 b2 b3 :: toWords rest
  | _ => []

/-- Extend the schedule by `n` words (`w_t` for `t ≥ 16`). -/
def extendSchedule (w : List Nat) : Nat → List Nat
  | 0 => w
  | n + 1 =>
      let k := w.length
      extendSchedule
        (w ++ [(smallS1 (w.getD (k - 2) 0) + w.getD (k - 7) 0 +
                smallS0 (w.getD (k - 15) 0) + w.getD (k - 16) 0) % M32]) n

/-- One compression round. -/
def round (st : Hash8) (kt wt : Nat) : Hash8 :=
  let t1 := (st.h + bigS1 st.e + ch st.e st.f st.g + kt + wt) % M32
  let t2 := (bigS0 st.a + maj st.a st.b st.c) % M32
  ⟨(t1 + t2) % M32, st.a, st.b, st.c, (st.d + t1) % M32, st.e, st.f, st.g⟩

/-- Compress one 64-byte block into the state. -/
def compress (st : Hash8) (block : List Nat) : Hash8 :=
  let w := extendSchedule (toWords block) 48
  let fin := (K.zip w).foldl (fun s p => round s p.1 p.2) st
  ⟨(st.a + fin.a) % M32, (st.b + fin.b) % M32, (st.c + fin.c) % M32, (st.d + fin.d) % M32,
   (st.e + fin.e) % M32, (st.f + fin.f) % M32, (st.g + fin.g) % M32, (st.h + fin.h) % M32⟩

/-- Split into 64-byte blocks; the fuel (at least the list length, one
unit per block) keeps the recursion structural. -/
def chunks64Fuel : Nat → List Nat → List (List Nat)
  | _, [] => []
  | 0, _ :: _ => []
  | fuel + 1, b :: rest => ((b :: rest).take 64) :: chunks64Fuel fuel ((b :: rest).drop 64)

/-- Split the padded message into 64-byte blocks. -/
def chunks64 (l : List Nat) : List (List Nat) := chunks64Fuel l.length l

/-- The final eight-word state for a byte message. -/
def sha256State (msg : List Nat) : Hash8 :=
  (chunks64 (msg ++ padding msg.length)).foldl compress initH

/-- The sixteen lower-case hexadecimal digits. -/
def hexDigits : List Char := "0123456789abcdef".data

/-- The hex digit of a nibble. -/
def hexDigit (n : Nat) : Char := hexDigits.getD (n % 16) '0'

/-- Eight lower-case hex characters of one 32-bit word. -/
def hexWord32 (w : Nat) : String :=
  String.mk ([w >>> 28, w >>> 24, w >>> 20, w >>> 16, w >>> 12, w >>> 8, w >>> 4, w].map
    hexDigit)

/-- The `hashlib.sha256(raw_bytes).hexdigest()`. -/
def sha256Hex (msg : List Nat) : String :=
  let st := sha256State msg
  hexWord32 st.a ++ hexWord32 st.b ++ hexWord32 st.c ++ hexWord32 st.d ++
    hexWord32 st.e ++ hexWord32 st.f ++ hexWord32 st.g ++ hexWord32 st.h

end SHA256

/-! ## YAML bundle loader (`yaml_engine/loader.py`)

The loader's own control flow is translated directly; the three external
libraries it drives are abstracted as parameters: `parse` for
`yaml.safe_load` (returning a value or a parse-error message), `schema`
for `jsonschema.validate` against the embedded JSON Schema, and
`regexOk` for `re.compile` succeeding on a pattern. -/

/-- The `MAX_BUNDLE_SIZE = 1_048_576` (1 MiB). -/
def MAX_BUNDLE_SIZE : Nat := 1048576

/-- The `CallGuardConfigError` with its human-readable message. -/
structure ConfigError where
  message : String
deriving DecidableEq

/-- The `BundleHash`: SHA-256 of the raw YAML bytes, used as
`policy_version`. -/
structure BundleHash where
  hex : String
deriving DecidableEq

/-- The `_compute_hash(raw_bytes)`. -/
def compute_hash (raw_bytes : List Nat) : BundleHash :=
  { hex := SHA256.sha256Hex raw_bytes }

/-- Python truthiness of a value (`if when:`). -/
def pyTruthy : Value → Bool
  | .vnull => false
  | .vbool b => b
  | .vnum q => q != 0
  | .vstr s => !s.isEmpty
  | .vlist vs => !vs.isEmpty
  | .vdict fs => !fs.isEmpty

/-- The `data.get("contracts", [])`; the schema (already validated when the
per-contract passes run) guarantees a list. -/
def contractsOf (fs : List (String × Value)) : List Value :=
  match lookupField fs "contracts" with
  | some (.vlist cs) => cs
  | _ => []

/-- The mapping entries of one contract (the schema guarantees each
contract is a mapping). -/
def contractFields : Value → List (String × Value)
  | .vdict fs => fs
  | _ => []

/-- The `contract.get("id")`. -/
def idOf (c : Value) : Option Value :=
  lookupField (contractFields c) "id"

/-- Python `==` lifted to the optional ids collected in the seen-set. -/
def optValBeq : Option Value → Option Value → Bool
  | some a, some b => Value.beq a b
  | Option.none, Option.none => true
  | _, _ => false

/-- Python `str()` of an id value, for the duplicate-id message. -/
def valueStr : Value → String
  | .vstr s => s
  | .vnull => "None"
  | .vbool true => "True"
  | .vbool false => "False"
  | .vnum q => toString q
  | .vlist _ => "[...]"
  | .vdict _ => "\x7b...\x7d"

/-- The `str(contract_id)`. -/
def optIdStr : Option Value → String
  | some v => valueStr v
  | Option.none => "None"

/-- The `_validate_unique_ids`: walk the contracts keeping the set of ids
seen so far, raising on the first repeat. -/
def validate_unique_ids : List Value → List (Option Value) → Except ConfigError Unit
  | [], _ => .ok ()
  | c :: rest, seen =>
      let cid := idOf c
      if seen.any (fun s => optValBeq cid s) then
        .error { message := "Duplicate contract id: '" ++ optIdStr cid ++ "'" }
      else
        validate_unique_ids rest (cid :: seen)

/-- The `ConfigError` of `_try_compile_regex` (the embedded `re.error`
detail of the Python message is not modelled). -/
def invalidRegexError (pat : String) : ConfigError :=
  { message := "Invalid regex pattern '" ++ pat ++ "'" }

/-- The `_try_compile_regex` over each pattern of a `matches_any` list;
non-string entries cannot survive schema validation and are skipped. -/
def checkPatternList (regexOk : String → Bool) : List Value → Except ConfigError Unit
  | [] => .ok ()
  | .vstr p :: rest =>
      if regexOk p then checkPatternList regexOk rest else .error (invalidRegexError p)
  | _ :: rest => checkPatternList regexOk rest

/-- The per-leaf operator walk of `_validate_expression_regexes`:
`matches` and `matches_any` patterns are compiled; non-dict operators are
skipped. -/
def checkLeafOperators (regexOk : String → Bool) : List (String × Value) → Except ConfigError Unit
  | [] => .ok ()
  | (_, op) :: rest =>
      match op with
      | .vdict ofs =>
          let m1 : Except ConfigError Unit :=
            match lookupField ofs "matches" with
            | some (.vstr p) =>
                if regexOk p then .ok () else .error (invalidRegexError p)
            | _ => .ok ()
          match m1 with
          | .error e => .error e
          | .ok _ =>
              let m2 : Except ConfigError Unit :=
                match lookupField ofs "matches_any" with
                | some (.vlist pats) => checkPatternList regexOk pats
                | _ => .ok ()
              match m2 with
              | .error e => .error e
              | .ok _ => checkLeafOperators regexOk rest
      | _ => checkLeafOperators regexOk rest

/-- A value found by `lookupField` is structurally smaller than the
field list, justifying the traversals' recursion into looked-up
sub-expressions. -/
def lookupField_sizeOf_lt {fs : List (String × Value)} {k : String} {v : Value}
    (h : lookupField fs k = some v) : sizeOf v < sizeOf fs := by
  induction fs with
  | nil => simp [lookupField] at h
  | cons p rest ih =>
      obtain ⟨k', v'⟩ := p
      rw [lookupField] at h
      by_cases hk : (k' == k) = true
      · rw [if_pos hk] at h
        cases h
        simp
        omega
      · rw [if_neg hk] at h
        have := ih h
        simp
        omega

mutual

/-- The `_validate_expression_regexes(expr)`: boolean nodes recurse, leaves
have their `matches` / `matches_any` patterns compiled. -/
def validateExprRegexes (regexOk : String → Bool) : Value → Except ConfigError Unit
  | .vdict fs =>
      match hall : lookupField fs "all" with
      | some (.vlist subs) => validateExprListRegexes regexOk subs
      | some _ => .ok ()
      | Option.none =>
        match hany : lookupField fs "any" with
        | some (.vlist subs) => validateExprListRegexes regexOk subs
        | some _ => .ok ()
        | Option.none =>
          match hnot : lookupField fs "not" with
          | some sub => validateExprRegexes regexOk sub
          | Option.none => checkLeafOperators regexOk fs
  | _ => .ok ()
termination_by v => sizeOf v
decreasing_by
  · have h1 := lookupField_sizeOf_lt hall
    simp at h1 ⊢
    omega
  · have h1 := lookupField_sizeOf_lt hany
    simp at h1 ⊢
    omega
  · have h1 := lookupField_sizeOf_lt hnot
    simp at h1 ⊢
    omega

/-- Recurse over the children of an `all` / `any` node. -/
def validateExprListRegexes (regexOk : String → Bool) : List Value → Except ConfigError Unit
  | [] => .ok ()
  | e :: rest =>
      match validateExprRegexes regexOk e with
      | .error er => .error er
      | .ok _ => validateExprListRegexes regexOk rest
termination_by l => sizeOf l
decreasing_by
  all_goals (simp; try omega)

end

/-- The `_validate_regexes(data)`: compile every regex of every contract's
`when` expression at load time. -/
def validate_regexes (regexOk : String → Bool) (fs : List (String × Value)) :
    Except ConfigError Unit :=
  go (contractsOf fs)
where
  /-- The per-contract loop. -/
  go : List Value → Except ConfigError Unit
    | [] => .ok ()
    | c :: rest =>
        let whenV := lookupField (contractFields c) "when"
        match whenV with
        | some w =>
            if pyTruthy w then
              match validateExprRegexes regexOk w with
              | .error e => .error e
              | .ok _ => go rest
            else go rest
        | Option.none => go rest

mutual

/-- The `_expression_has_selector(expr, target)`: does the expression tree
contain the selector `target` as a leaf key? -/
def expressionHasSelector (target : String) : Value → Bool
  | .vdict fs =>
      match hall : lookupField fs "all" with
      | some (.vlist subs) => exprListHasSelector target subs
      | some _ => false
      | Option.none =>
        match hany : lookupField fs "any" with
        | some (.vlist subs) => exprListHasSelector target subs
        | some _ => false
        | Option.none =>
          match hnot : lookupField fs "not" with
          | some sub => expressionHasSelector target sub
          | Option.none => (lookupField fs target).isSome
  | _ => false
termination_by v => sizeOf v
decreasing_by
  · have h1 := lookupField_sizeOf_lt hall
    simp at h1 ⊢
    omega
  · have h1 := lookupField_sizeOf_lt hany
    simp at h1 ⊢
    omega
  · have h1 := lookupField_sizeOf_lt hnot
    simp at h1 ⊢
    omega

/-- The `any(_expression_has_selector(sub, target) for sub in ...)`. -/
def exprListHasSelector (target : String) : List Value → Bool
  | [] => false
  | e :: rest => expressionHasSelector target e || exprListHasSelector target rest
termination_by l => sizeOf l
decreasing_by
  all_goals (simp; try omega)

end

/-- The `ConfigError` of `_validate_pre_selectors` for one contract. -/
def preSelectorError (c : Value) : ConfigError :=
  { message := "Contract '" ++
      (match idOf c with | some v => valueStr v | Option.none => "?") ++
      "': output.text selector is not available in type: pre contracts" }

/-- The `_validate_pre_selectors(data)`: reject `output.text` selectors in
`type: pre` contracts. -/
def validate_pre_selectors (fs : List (String × Value)) : Except ConfigError Unit :=
  go (contractsOf fs)
where
  /-- The per-contract loop: `contract.get("type") != "pre"` skips. -/
  go : List Value → Except ConfigError Unit
    | [] => .ok ()
    | c :: rest =>
        match lookupField (contractFields c) "type" with
        | some (.vstr t) =>
            if t = "pre" then
              (match lookupField (contractFields c) "when" with
               | some w =>
                   if pyTruthy w && expressionHasSelector "output.text" w then
                     .error (preSelectorError c)
                   else go rest
               | Option.none => go rest)
            else go rest
        | _ => go rest

/-- The `load_bundle(source)`.  `parse` stands for `yaml.safe_load`,
`schema` for `jsonschema.validate` against the embedded schema, and
`regexOk` for `re.compile` succeeding; the input is the raw byte stream
of the file (its length is `path.stat().st_size`). -/
def load_bundle (parse : List Nat → Except String Value)
    (schema : Value → Except String Unit) (regexOk : String → Bool)
    (raw : List Nat) : Except ConfigError (List (String × Value) × BundleHash) :=
  if raw.length > MAX_BUNDLE_SIZE then
    .error { message := "Bundle file too large (" ++ toString raw.length ++
      " bytes, max " ++ toString MAX_BUNDLE_SIZE ++ ")" }
  else
    let bundle_hash := compute_hash raw
    match parse raw with
    | .error e => .error { message := "YAML parse error: " ++ e }
    | .ok data =>
      match data with
      | .vdict fs =>
          (match schema (.vdict fs) with
           | .error m => .error { message := "Schema validation failed: " ++ m }
           | .ok _ =>
             match validate_unique_ids (contractsOf fs) [] with
             | .error e => .error e
             | .ok _ =>
               match validate_regexes regexOk fs with
               | .error e => .error e
               | .ok _ =>
                 match validate_pre_selectors fs with
                 | .error e => .error e
                 | .ok _ => .ok (fs, bundle_hash))
      | _ => .error { message := "YAML document must be a mapping" }

/-- Is there a repeated contract id (under Python `==`, in the
orientation of the loader's seen-set check)? -/
def hasDupIds : List (Option Value) → Bool
  | [] => false
  | x :: xs => xs.any (fun y => optValBeq y x) || hasDupIds xs

/-- Is this contract a `type: pre` contract whose (truthy) `when`
expression contains the `output.text` selector? -/
def contractIsPreWithOutputText (c : Value) : Bool :=
  match lookupField (contractFields c) "type" with
  | some (.vstr t) =>
      if t = "pre" then
        match lookupField (contractFields c) "when" with
        | some w => pyTruthy w && expressionHasSelector "output.text" w
        | Option.none => false
      else false
  | _ => false

/-! ## Theorems

The development above is the embedding; everything below settles the
stated properties of the governance core against it. -/

theorem evalLeaf_isError_of_mismatch (rm : String → String → Bool)
    (v? : Option Value) (op : Operator) (h : leafMismatch v? op = true) :
    (evalLeaf rm v? op).isError = true := by
  match v? with
  | Option.none => simp [leafMismatch] at h
  | some v =>
    cases op <;> cases v <;>
      simp_all [leafMismatch, Operator.isStringOp, Operator.isNumericOp,
        Value.isStr, Value.isNum, evalLeaf, EvalResult.isError]

mutual

theorem evaluate_isError_of_mismatch (rm : String → String → Bool) (env : Envelope)
    (t : Option String) :
    ∀ e : Expr, exprHasMismatch env t e = true → (evaluate rm env t e).isError = true
  | .leaf sel op, h => by
      simpa [evaluate] using
        evalLeaf_isError_of_mismatch rm (resolveSelector env t sel) op
          (by simpa [exprHasMismatch] using h)
  | .allOf es, h => by
      simpa [evaluate] using
        evalAllList_isError_of_mismatch rm env t es
          (by simpa [exprHasMismatch] using h)
  | .anyOf es, h => by
      simpa [evaluate] using
        evalAnyList_isError_of_mismatch rm env t es
          (by simpa [exprHasMismatch] using h)
  | .notOf e, h => by
      have ih := evaluate_isError_of_mismatch rm env t e
        (by simpa [exprHasMismatch] using h)
      cases he : evaluate rm env t e <;>
        simp_all [evaluate, EvalResult.isError]

theorem evalAllList_isError_of_mismatch (rm : String → String → Bool) (env : Envelope)
    (t : Option String) :
    ∀ es : ExprList, exprListHasMismatch env t es = true →
      (evalAllList rm env t es).isError = true
  | .cons e rest, h => by
      rw [exprListHasMismatch, Bool.or_eq_true] at h
      rcases h with h | h
      · have ih := evaluate_isError_of_mismatch rm env t e h
        cases he : evaluate rm env t e <;>
          cases hr : evalAllList rm env t rest <;>
            simp_all [evalAllList, EvalResult.isError]
      · have ih := evalAllList_isError_of_mismatch rm env t rest h
        cases he : evaluate rm env t e <;>
          cases hr : evalAllList rm env t rest <;>
            simp_all [evalAllList, EvalResult.isError]

theorem evalAnyList_isError_of_mismatch (rm : String → String → Bool) (env : Envelope)
    (t : Option String) :
    ∀ es : ExprList, exprListHasMismatch env t es = true →
      (evalAnyList rm env t es).isError = true
  | .cons e rest, h => by
      rw [exprListHasMismatch, Bool.or_eq_true] at h
      rcases h with h | h
      · have ih := evaluate_isError_of_mismatch rm env t e h
        cases he : evaluate rm env t e <;>
          cases hr : evalAnyList rm env t rest <;>
            simp_all [evalAnyList, EvalResult.isError]
      · have ih := evalAnyList_isError_of_mismatch rm env t rest h
        cases he : evaluate rm env t e <;>
          cases hr : evalAnyList rm env t rest <;>
            simp_all [evalAnyList, EvalResult.isError]

end

theorem EvalResult.truthy_of_isError (r : EvalResult) (h : r.isError = true) :
    r.truthy = true := by
  cases r <;> simp_all [EvalResult.isError, EvalResult.truthy]

/-- Claim C1: A policy expression containing a type-mismatched operator
application (a string operator on a non-string value, or a numeric
comparator on a non-numeric value) evaluates to a `PolicyError`, which is
distinct from both `true` and `false`; the error propagates unchanged
through enclosing `all`, `any` and `not` nodes; and at the top level of a
compiled deny contract it is treated as truthy, so the governance
pipeline's decision for a call using that expression is `deny`. -/
theorem C1_type_mismatch_fail_closed (rm : String → String → Bool) (env : Envelope)
    (t : Option String) (e : Expr) (h : exprHasMismatch env t e = true) :
    (evaluate rm env t e).isError = true ∧
    (∀ m, evaluate rm env t e = .err m →
        (EvalResult.err m ≠ .tru ∧ EvalResult.err m ≠ .fls) ∧
        evaluate rm env t (.notOf e) = .err m ∧
        evaluate rm env t (.allOf (.cons e .nil)) = .err m ∧
        evaluate rm env t (.anyOf (.cons e .nil)) = .err m) ∧
    (t = Option.none →
      ∀ cid tool msg ma mt, toolApplies tool env.tool_name = true →
        pre_execute
            { limits := { max_attempts := ma, max_tool_calls := mt },
              preconditions := [compile_pre_deny rm cid tool e msg] }
            env { records := [] } =
          { action := "deny", reason := some msg,
            decision_source := some "precondition", decision_name := some cid,
            hooks_evaluated := [],
            contracts_evaluated :=
              [{ name := cid, type := "precondition", passed := false, message := msg }] }) := by
  have herr := evaluate_isError_of_mismatch rm env t e h
  refine ⟨herr, ?_, ?_⟩
  · intro m hm
    refine ⟨⟨by simp, by simp⟩, ?_, ?_, ?_⟩
    · simp [evaluate, hm]
    · simp [evaluate, evalAllList, hm]
    · simp [evaluate, evalAnyList, hm]
  · rintro rfl cid tool msg ma mt htool
    have hverdict :
        (compile_pre_deny rm cid tool e msg).body env = Verdict.fail msg := by
      simp [compile_pre_deny,
        EvalResult.truthy_of_isError (evaluate rm env Option.none e) herr]
    have hfilter :
        List.filter (fun c => toolApplies c.tool env.tool_name)
            [compile_pre_deny rm cid tool e msg] =
          [compile_pre_deny rm cid tool e msg] := by
      simp only [List.filter, compile_pre_deny, htool]
    have hrec : preRecordOf env (compile_pre_deny rm cid tool e msg) =
        { name := cid, type := "precondition", passed := false, message := msg } := by
      simp [preRecordOf, hverdict, Verdict.fail]
      exact rfl
    have hrun : runPreconditions env [] [compile_pre_deny rm cid tool e msg] [] =
        .error { action := "deny", reason := some msg,
                 decision_source := some "precondition", decision_name := some cid,
                 hooks_evaluated := [],
                 contracts_evaluated :=
                   [{ name := cid, type := "precondition", passed := false, message := msg }] } := by
      simp [runPreconditions, hverdict, hrec, Verdict.fail]
    simp [pre_execute, Session.attempt_count, Guard.get_before_hooks,
      Guard.get_preconditions, hfilter, runBeforeHooks, hrun]

/-- Witness for C1: scenario 5 of the spec — `{args.count: {gt: 5}}`
against `args.count = "not_a_number"`. -/
theorem C1_type_mismatch_fail_closed_witness :
    exprHasMismatch
        { tool_name := "deploy", tool_input := [("count", Value.vstr "not_a_number")] }
        Option.none (Expr.leaf "args.count" (Operator.gt 5)) = true ∧
      (evaluate (fun _ _ => false)
          { tool_name := "deploy", tool_input := [("count", Value.vstr "not_a_number")] }
          Option.none (Expr.leaf "args.count" (Operator.gt 5))).isError = true := by
  refine ⟨by decide, ?_⟩
  exact (C1_type_mismatch_fail_closed (fun _ _ => false)
    { tool_name := "deploy", tool_input := [("count", Value.vstr "not_a_number")] }
    Option.none (Expr.leaf "args.count" (Operator.gt 5)) (by decide)).1

theorem runBeforeHooks_cons_skip (env : Envelope) (cev : List ContractRecord)
    (h : HookReg) (rest : List HookReg) (acc : List HookRecord)
    (hskip : hookSkipped env h = true) :
    runBeforeHooks env cev (h :: rest) acc = runBeforeHooks env cev rest acc := by
  simp [runBeforeHooks, hskip]

theorem runBeforeHooks_cons_pass (env : Envelope) (cev : List ContractRecord)
    (h : HookReg) (rest : List HookReg) (acc : List HookRecord)
    (hskip : hookSkipped env h = false) (hres : (h.callback env).result ≠ HookResult.deny) :
    runBeforeHooks env cev (h :: rest) acc =
      runBeforeHooks env cev rest (acc ++ [recOfHook env h]) := by
  simp [runBeforeHooks, hskip, hres, recOfHook]

theorem runBeforeHooks_cons_deny (env : Envelope) (cev : List ContractRecord)
    (h : HookReg) (rest : List HookReg) (acc : List HookRecord)
    (hskip : hookSkipped env h = false) (hres : (h.callback env).result = HookResult.deny) :
    runBeforeHooks env cev (h :: rest) acc =
      .error { action := "deny", reason := some (h.callback env).reason,
               decision_source := some "hook", decision_name := some h.name,
               hooks_evaluated := acc ++ [recOfHook env h], contracts_evaluated := cev } := by
  simp [runBeforeHooks, hskip, hres, recOfHook, hookRecordOf]

theorem runBeforeHooks_eq (env : Envelope) (cev : List ContractRecord) :
    ∀ (hooks : List HookReg) (acc : List HookRecord),
      runBeforeHooks env cev hooks acc =
        (let act := hooks.filter (fun h => !hookSkipped env h)
         let p := act.takeWhile (fun h => !hookDenies env h)
         match act.dropWhile (fun h => !hookDenies env h) with
         | [] => .ok (acc ++ p.map (recOfHook env))
         | h :: _ =>
             .error { action := "deny", reason := some (h.callback env).reason,
                      decision_source := some "hook", decision_name := some h.name,
                      hooks_evaluated := acc ++ (p ++ [h]).map (recOfHook env),
                      contracts_evaluated := cev })
  | [], acc => by simp [runBeforeHooks]
  | h :: rest, acc => by
      by_cases hskip : hookSkipped env h = true
      · have ih := runBeforeHooks_eq env cev rest acc
        rw [runBeforeHooks_cons_skip env cev h rest acc hskip, ih]
        simp [List.filter_cons, hskip]
      · replace hskip : hookSkipped env h = false := by simpa using hskip
        by_cases hdeny : hookDenies env h = true
        · have hres : (h.callback env).result = HookResult.deny := by
            simpa [hookDenies] using hdeny
          rw [runBeforeHooks_cons_deny env cev h rest acc hskip hres]
          simp [List.filter_cons, hskip, List.takeWhile_cons, List.dropWhile_cons, hdeny]
        · replace hdeny : hookDenies env h = false := by simpa using hdeny
          have hres : (h.callback env).result ≠ HookResult.deny := by
            simpa [hookDenies] using hdeny
          have ih := runBeforeHooks_eq env cev rest (acc ++ [recOfHook env h])
          rw [runBeforeHooks_cons_pass env cev h rest acc hskip hres, ih]
          simp only [List.filter_cons, hskip, Bool.not_false, if_true,
            List.takeWhile_cons, List.dropWhile_cons, hdeny]
          cases (rest.filter (fun h => !hookSkipped env h)).dropWhile
              (fun h => !hookDenies env h) <;>
            simp

theorem runPreconditions_eq (env : Envelope) (hooksEv : List HookRecord) :
    ∀ (cs : List PreContract) (acc : List ContractRecord),
      runPreconditions env hooksEv cs acc =
        (let p := cs.takeWhile (fun c => (c.body env).passed)
         match cs.dropWhile (fun c => (c.body env).passed) with
         | [] => .ok (acc ++ p.map (preRecordOf env))
         | c :: _ =>
             .error { action := "deny", reason := some (c.body env).message,
                      decision_source := some "precondition", decision_name := some c.name,
                      hooks_evaluated := hooksEv,
                      contracts_evaluated := acc ++ (p ++ [c]).map (preRecordOf env) })
  | [], acc => by simp [runPreconditions]
  | c :: rest, acc => by
      by_cases hp : (c.body env).passed = true
      · have ih := runPreconditions_eq env hooksEv rest (acc ++ [preRecordOf env c])
        simp only [runPreconditions, hp, if_true, List.takeWhile_cons, List.dropWhile_cons]
        rw [ih]
        cases rest.dropWhile (fun c => (c.body env).passed) <;> simp [hp]
      · replace hp : (c.body env).passed = false := by simpa using hp
        simp [runPreconditions, hp, List.takeWhile_cons, List.dropWhile_cons, preRecordOf]

theorem runSessionContracts_eq (s : Session) (hooksEv : List HookRecord) :
    ∀ (cs : List (SessionContract Session)) (acc : List ContractRecord),
      runSessionContracts s hooksEv cs acc =
        (let p := cs.takeWhile (fun c => (c.body s).passed)
         match cs.dropWhile (fun c => (c.body s).passed) with
         | [] => .ok (acc ++ p.map (sessionRecordOf s))
         | c :: _ =>
             .error { action := "deny", reason := some (c.body s).message,
                      decision_source := some "session_contract", decision_name := some c.name,
                      hooks_evaluated := hooksEv,
                      contracts_evaluated := acc ++ (p ++ [c]).map (sessionRecordOf s) })
  | [], acc => by simp [runSessionContracts]
  | c :: rest, acc => by
      by_cases hp : (c.body s).passed = true
      · have ih := runSessionContracts_eq s hooksEv rest (acc ++ [sessionRecordOf s c])
        simp only [runSessionContracts, hp, if_true, List.takeWhile_cons, List.dropWhile_cons]
        rw [ih]
        cases rest.dropWhile (fun c => (c.body s).passed) <;> simp [hp]
      · replace hp : (c.body s).passed = false := by simpa using hp
        simp [runSessionContracts, hp, List.takeWhile_cons, List.dropWhile_cons,
          sessionRecordOf]

/-- Claim C3: When the session's attempt count strictly exceeds
`max_attempts`, `pre_execute` denies with source `attempt_limit` before
any hook or contract is evaluated (both evaluated-lists are empty); when
the attempt count equals `max_attempts`, the attempt-limit check does not
deny (whatever the outcome, its source is never `attempt_limit`). -/
theorem C3_attempt_limit_preemption (g : Guard) (env : Envelope) (s : Session) :
    (s.attempt_count > g.limits.max_attempts →
      (pre_execute g env s).action = "deny" ∧
      (pre_execute g env s).decision_source = some "attempt_limit" ∧
      (pre_execute g env s).hooks_evaluated = [] ∧
      (pre_execute g env s).contracts_evaluated = []) ∧
    (s.attempt_count = g.limits.max_attempts →
      (pre_execute g env s).decision_source ≠ some "attempt_limit") := by
  constructor
  · intro h
    simp [pre_execute, h]
  · intro h
    have hng : ¬(s.attempt_count > g.limits.max_attempts) := by omega
    simp only [pre_execute, hng, if_false]
    rw [runBeforeHooks_eq]
    simp only
    cases hdw : ((g.get_before_hooks env).filter (fun h => !hookSkipped env h)).dropWhile
        (fun h => !hookDenies env h) with
    | cons h' t => simp
    | nil =>
      simp only [List.nil_append]
      rw [runPreconditions_eq]
      simp only
      cases hdp : (g.get_preconditions env).dropWhile (fun c => (c.body env).passed) with
      | cons c' t => simp
      | nil =>
        simp only [List.nil_append]
        rw [runSessionContracts_eq]
        simp only
        cases hds : g.get_session_contracts.dropWhile (fun c => (c.body s).passed) with
        | cons c' t => simp
        | nil =>
          by_cases hexec : s.execution_count ≥ g.limits.max_tool_calls
          · simp [hexec]
          · cases hcap : g.limits.capFor env.tool_name with
            | none => simp [hexec, hcap]
            | some cap =>
              by_cases htool : s.tool_execution_count env.tool_name ≥ cap
              · simp [hexec, hcap, htool]
              · simp [hexec, hcap, htool]

/-- Witness for C3: `max_attempts = 1`; a session with two recorded
attempts denies with empty evaluation lists, a session with one attempt
is not denied by the attempt limit, even with a hook registered. -/
theorem C3_attempt_limit_preemption_witness :
    (({ records := [⟨"Bash", true⟩, ⟨"Bash", true⟩] } : Session).attempt_count >
        ({ limits := { max_attempts := 1, max_tool_calls := 100 },
           before_hooks := [{ name := "h1", callback := fun _ => { result := .allow } }] }
          : Guard).limits.max_attempts ∧
      (pre_execute
          { limits := { max_attempts := 1, max_tool_calls := 100 },
            before_hooks := [{ name := "h1", callback := fun _ => { result := .allow } }] }
          { tool_name := "Bash", tool_input := [] }
          { records := [⟨"Bash", true⟩, ⟨"Bash", true⟩] }).decision_source =
        some "attempt_limit") ∧
    (({ records := [⟨"Bash", true⟩] } : Session).attempt_count = 1 ∧
      (pre_execute
          { limits := { max_attempts := 1, max_tool_calls := 100 },
            before_hooks := [{ name := "h1", callback := fun _ => { result := .allow } }] }
          { tool_name := "Bash", tool_input := [] }
          { records := [⟨"Bash", true⟩] }).decision_source ≠ some "attempt_limit") := by
  refine ⟨⟨by decide, ?_⟩, ⟨by decide, ?_⟩⟩
  · exact ((C3_attempt_limit_preemption _ _ _).1 (by decide)).2.1
  · exact (C3_attempt_limit_preemption
      { limits := { max_attempts := 1, max_tool_calls := 100 },
        before_hooks := [{ name := "h1", callback := fun _ => { result := .allow } }] }
      { tool_name := "Bash", tool_input := [] }
      { records := [⟨"Bash", true⟩] }).2 (by decide)

/-- Claim C4: For a call that passes the attempt limit, all applicable
hooks, preconditions and session contracts: if the session's execution
count has reached `max_tool_calls` the pipeline denies with source
`operation_limit` and name `max_tool_calls`; otherwise, if the tool has a
per-tool cap that its execution count has reached, it denies with source
`operation_limit` and name `max_calls_per_tool:<tool>`; otherwise it
allows. -/
theorem C4_operation_limits (g : Guard) (env : Envelope) (s : Session)
    (hatt : s.attempt_count ≤ g.limits.max_attempts)
    (hhooks : ∀ h ∈ g.get_before_hooks env,
      hookSkipped env h = false → (h.callback env).result ≠ HookResult.deny)
    (hpres : ∀ c ∈ g.get_preconditions env, (c.body env).passed = true)
    (hsess : ∀ c ∈ g.get_session_contracts, (c.body s).passed = true) :
    (s.execution_count ≥ g.limits.max_tool_calls →
      (pre_execute g env s).action = "deny" ∧
      (pre_execute g env s).decision_source = some "operation_limit" ∧
      (pre_execute g env s).decision_name = some "max_tool_calls") ∧
    (s.execution_count < g.limits.max_tool_calls →
      ∀ cap, g.limits.capFor env.tool_name = some cap →
        s.tool_execution_count env.tool_name ≥ cap →
          (pre_execute g env s).action = "deny" ∧
          (pre_execute g env s).decision_source = some "operation_limit" ∧
          (pre_execute g env s).decision_name =
            some ("max_calls_per_tool:" ++ env.tool_name)) ∧
    (s.execution_count < g.limits.max_tool_calls →
      (∀ cap, g.limits.capFor env.tool_name = some cap →
        s.tool_execution_count env.tool_name < cap) →
      (pre_execute g env s).action = "allow") := by
  have hng : ¬(s.attempt_count > g.limits.max_attempts) := by omega
  have hdw : ((g.get_before_hooks env).filter (fun h => !hookSkipped env h)).dropWhile
      (fun h => !hookDenies env h) = [] := by
    rw [List.dropWhile_eq_nil_iff]
    intro x hx
    obtain ⟨hin, hf⟩ := List.mem_filter.mp hx
    have := hhooks x hin (by simpa using hf)
    simp [hookDenies, this]
  have hdp : (g.get_preconditions env).dropWhile (fun c => (c.body env).passed) = [] := by
    rw [List.dropWhile_eq_nil_iff]
    intro x hx
    exact hpres x hx
  have hds : g.get_session_contracts.dropWhile (fun c => (c.body s).passed) = [] := by
    rw [List.dropWhile_eq_nil_iff]
    intro x hx
    exact hsess x hx
  have hpre : pre_execute g env s =
      (if s.execution_count ≥ g.limits.max_tool_calls then
        { action := "deny",
          reason := some (s!"Execution limit reached ({g.limits.max_tool_calls} calls). " ++
            "Summarize progress and stop."),
          decision_source := some "operation_limit", decision_name := some "max_tool_calls",
          hooks_evaluated := (activeBefore g env).map (recOfHook env),
          contracts_evaluated := (g.get_preconditions env).map (preRecordOf env) ++
            g.get_session_contracts.map (sessionRecordOf s) }
      else
        match g.limits.capFor env.tool_name with
        | some cap =>
            if s.tool_execution_count env.tool_name ≥ cap then
              { action := "deny",
                reason := some (toString "Per-tool limit: " ++ toString env.tool_name ++
                  toString " called " ++ toString (s.tool_execution_count env.tool_name) ++
                  toString " times (limit: " ++ toString cap ++ toString ")."),
                decision_source := some "operation_limit",
                decision_name := some ("max_calls_per_tool:" ++ env.tool_name),
                hooks_evaluated := (activeBefore g env).map (recOfHook env),
                contracts_evaluated := (g.get_preconditions env).map (preRecordOf env) ++
                  g.get_session_contracts.map (sessionRecordOf s) }
            else
              { action := "allow",
                hooks_evaluated := (activeBefore g env).map (recOfHook env),
                contracts_evaluated := (g.get_preconditions env).map (preRecordOf env) ++
                  g.get_session_contracts.map (sessionRecordOf s) }
        | Option.none =>
            { action := "allow",
              hooks_evaluated := (activeBefore g env).map (recOfHook env),
              contracts_evaluated := (g.get_preconditions env).map (preRecordOf env) ++
                g.get_session_contracts.map (sessionRecordOf s) }) := by
    simp only [pre_execute, hng, if_false]
    rw [runBeforeHooks_eq]
    simp only [hdw, List.nil_append]
    rw [runPreconditions_eq]
    simp only [hdp, List.nil_append]
    rw [runSessionContracts_eq]
    simp only [hds]
    have htw : ((g.get_before_hooks env).filter (fun h => !hookSkipped env h)).takeWhile
        (fun h => !hookDenies env h) = activeBefore g env := by
      rw [activeBefore, List.takeWhile_eq_self_iff]
      intro x hx
      obtain ⟨hin, hf⟩ := List.mem_filter.mp hx
      have := hhooks x hin (by simpa using hf)
      simp [hookDenies, this]
    have htp : (g.get_preconditions env).takeWhile (fun c => (c.body env).passed) =
        g.get_preconditions env := by
      rw [List.takeWhile_eq_self_iff]
      intro x hx
      exact hpres x hx
    have hts : g.get_session_contracts.takeWhile (fun c => (c.body s).passed) =
        g.get_session_contracts := by
      rw [List.takeWhile_eq_self_iff]
      intro x hx
      exact hsess x hx
    simp only [htw, htp, hts]
  refine ⟨?_, ?_, ?_⟩
  · intro hexec
    simp [hpre, hexec]
  · intro hexec cap hcap htool
    have hne : ¬(s.execution_count ≥ g.limits.max_tool_calls) := by omega
    simp [hpre, hne, hcap, htool]
  · intro hexec hcaps
    have hne : ¬(s.execution_count ≥ g.limits.max_tool_calls) := by omega
    cases hcap : g.limits.capFor env.tool_name with
    | none => simp [hpre, hne, hcap]
    | some cap =>
      have := hcaps cap hcap
      have hnt : ¬(s.tool_execution_count env.tool_name ≥ cap) := by omega
      simp [hpre, hne, hcap, hnt]

/-- Witness for C4: spec scenario 3 — `max_calls_per_tool.bash = 2`; with
two recorded bash executions the third call denies with
`max_calls_per_tool:bash`, with one recorded execution it allows. -/
theorem C4_operation_limits_witness :
    ((pre_execute
        { limits := { max_attempts := 100, max_tool_calls := 50,
                      max_calls_per_tool := [("bash", 2)] } }
        { tool_name := "bash", tool_input := [("command", Value.vstr "ls")] }
        { records := [⟨"bash", true⟩, ⟨"bash", true⟩] }).action = "deny" ∧
      (pre_execute
        { limits := { max_attempts := 100, max_tool_calls := 50,
                      max_calls_per_tool := [("bash", 2)] } }
        { tool_name := "bash", tool_input := [("command", Value.vstr "ls")] }
        { records := [⟨"bash", true⟩, ⟨"bash", true⟩] }).decision_name =
        some "max_calls_per_tool:bash") ∧
    (pre_execute
        { limits := { max_attempts := 100, max_tool_calls := 50,
                      max_calls_per_tool := [("bash", 2)] } }
        { tool_name := "bash", tool_input := [("command", Value.vstr "ls")] }
        { records := [⟨"bash", true⟩] }).action = "allow" := by
  refine ⟨?_, ?_⟩
  · have h := C4_operation_limits
      { limits := { max_attempts := 100, max_tool_calls := 50,
                    max_calls_per_tool := [("bash", 2)] } }
      { tool_name := "bash", tool_input := [("command", Value.vstr "ls")] }
      { records := [⟨"bash", true⟩, ⟨"bash", true⟩] }
      (by decide) (by intro h hm; simp [Guard.get_before_hooks] at hm)
      (by intro c hm; simp [Guard.get_preconditions] at hm)
      (by intro c hm; simp [Guard.get_session_contracts] at hm)
    have h2 := h.2.1 (by decide) 2 (by decide) (by decide)
    exact ⟨h2.1, h2.2.2⟩
  · have h := C4_operation_limits
      { limits := { max_attempts := 100, max_tool_calls := 50,
                    max_calls_per_tool := [("bash", 2)] } }
      { tool_name := "bash", tool_input := [("command", Value.vstr "ls")] }
      { records := [⟨"bash", true⟩] }
      (by decide) (by intro h hm; simp [Guard.get_before_hooks] at hm)
      (by intro c hm; simp [Guard.get_preconditions] at hm)
      (by intro c hm; simp [Guard.get_session_contracts] at hm)
    refine h.2.2 (by decide) ?_
    intro cap hcap
    have : cap = 2 := by
      simpa [Limits.capFor, List.find?] using hcap.symm
    subst this
    decide

/-- Claim C9: The returned decision records exactly the evaluated checks,
in evaluation order: skipped hooks (failed `when` predicate, or tool
mismatch) have no entry, a short-circuiting deny is itself the last
recorded entry of its phase, and nothing after the short-circuit is
recorded.  `takeWhile` collects the checks that passed, the head of
`dropWhile` is the short-circuiting check when there is one. -/
theorem C9_evaluation_order_recording (g : Guard) (env : Envelope) (s : Session) :
    (s.attempt_count > g.limits.max_attempts →
      (pre_execute g env s).hooks_evaluated = [] ∧
      (pre_execute g env s).contracts_evaluated = []) ∧
    (s.attempt_count ≤ g.limits.max_attempts →
      (pre_execute g env s).hooks_evaluated =
        ((activeBefore g env).takeWhile (fun h => !hookDenies env h) ++
          ((activeBefore g env).dropWhile (fun h => !hookDenies env h)).take 1).map
          (recOfHook env) ∧
      ((activeBefore g env).dropWhile (fun h => !hookDenies env h) ≠ [] →
        (pre_execute g env s).contracts_evaluated = []) ∧
      ((activeBefore g env).dropWhile (fun h => !hookDenies env h) = [] →
        (pre_execute g env s).contracts_evaluated =
          ((g.get_preconditions env).takeWhile (fun c => (c.body env).passed) ++
            ((g.get_preconditions env).dropWhile (fun c => (c.body env).passed)).take 1).map
            (preRecordOf env) ++
          (match (g.get_preconditions env).dropWhile (fun c => (c.body env).passed) with
           | [] =>
             (g.get_session_contracts.takeWhile (fun c => (c.body s).passed) ++
               (g.get_session_contracts.dropWhile (fun c => (c.body s).passed)).take 1).map
               (sessionRecordOf s)
           | _ :: _ => []))) := by
  constructor
  · intro h
    simp [pre_execute, h]
  · intro h
    have hng : ¬(s.attempt_count > g.limits.max_attempts) := by omega
    simp only [pre_execute, hng, if_false]
    rw [runBeforeHooks_eq]
    simp only [activeBefore]
    cases hdw : ((g.get_before_hooks env).filter (fun h => !hookSkipped env h)).dropWhile
        (fun h => !hookDenies env h) with
    | cons h' t => simp
    | nil =>
      simp only [List.nil_append, List.take_nil, List.append_nil]
      rw [runPreconditions_eq]
      simp only
      cases hdp : (g.get_preconditions env).dropWhile (fun c => (c.body env).passed) with
      | cons c' t =>
        simp [List.take_cons, List.take_nil]
      | nil =>
        simp only [List.nil_append, List.take_nil, List.append_nil]
        rw [runSessionContracts_eq]
        simp only
        cases hds : g.get_session_contracts.dropWhile (fun c => (c.body s).passed) with
        | cons c' t =>
          simp [List.take_cons, List.take_nil]
        | nil =>
          simp only [List.take_nil, List.append_nil]
          by_cases hexec : s.execution_count ≥ g.limits.max_tool_calls
          · simp [hexec]
          · cases hcap : g.limits.capFor env.tool_name with
            | none => simp [hexec, hcap]
            | some cap =>
              by_cases htool : s.tool_execution_count env.tool_name ≥ cap
              · simp [hexec, hcap, htool]
              · simp [hexec, hcap, htool]

/-- Witness for C9: a guard with one skipped hook, one passing hook, one
denying hook and a never-reached fourth hook: the decision records
exactly the passing and the denying hook, in order. -/
theorem C9_evaluation_order_recording_witness :
    (({ records := [] } : Session).attempt_count ≤ 10 ∧
      (pre_execute
          { limits := { max_attempts := 10, max_tool_calls := 10 },
            before_hooks :=
              [{ name := "skipped", whenPred := some (fun _ => false),
                 callback := fun _ => { result := .allow } },
               { name := "passes", callback := fun _ => { result := .allow } },
               { name := "denies",
                 callback := fun _ => { result := .deny, reason := "no" } },
               { name := "never_reached", callback := fun _ => { result := .allow } }] }
          { tool_name := "Bash", tool_input := [] } { records := [] }).hooks_evaluated =
        [{ name := "passes", result := "allow", reason := "" },
         { name := "denies", result := "deny", reason := "no" }]) := by
  refine ⟨by decide, ?_⟩
  have h := (C9_evaluation_order_recording
    { limits := { max_attempts := 10, max_tool_calls := 10 },
      before_hooks :=
        [{ name := "skipped", whenPred := some (fun _ => false),
           callback := fun _ => { result := .allow } },
         { name := "passes", callback := fun _ => { result := .allow } },
         { name := "denies",
           callback := fun _ => { result := .deny, reason := "no" } },
         { name := "never_reached", callback := fun _ => { result := .allow } }] }
    { tool_name := "Bash", tool_input := [] } { records := [] }).2 (by decide)
  rw [h.1]
  decide

/-- Claim C2, counterexample to the claimed behaviour: The before-hook
loop of `pre_execute` (`pipeline.py` lines 72–95) records a `modify`
decision but never reads its `modified_input`: a hook that redirects
`path` from `/dangerous` to `/safe/x` leaves `tool_input` unchanged for
the downstream precondition, which therefore still sees `/dangerous` and
denies.  Under the claimed behaviour the precondition would have seen
`/safe/x` and the call would have been allowed. -/
theorem C2_modified_input_not_applied :
    pre_execute
        { limits := { max_attempts := 10, max_tool_calls := 10 },
          before_hooks :=
            [{ name := "sandbox_paths",
               callback := fun _ =>
                 { result := .modify, reason := "redirect",
                   modified_input := some [("path", Value.vstr "/safe/x")] } }],
          preconditions :=
            [{ name := "no_dangerous_path",
               body := fun env =>
                 match lookupField env.tool_input "path" with
                 | some (.vstr "/dangerous") => Verdict.fail "Dangerous path"
                 | _ => Verdict.pass }] }
        { tool_name := "write_file", tool_input := [("path", Value.vstr "/dangerous")] }
        { records := [] } =
      { action := "deny", reason := some "Dangerous path",
        decision_source := some "precondition", decision_name := some "no_dangerous_path",
        hooks_evaluated := [{ name := "sandbox_paths", result := "modify", reason := "redirect" }],
        contracts_evaluated :=
          [{ name := "no_dangerous_path", type := "precondition",
             passed := false, message := "Dangerous path" }] } := by
  decide

/-- Claim C5: The session answers the three counter reads the pipeline
performs for its limits, and the atomic append updates them as specified:
appending a record increments `attempt_count` regardless of outcome,
increments `execution_count` only for an executed record, and increments
`tool_execution_count n` only for an executed record of tool `n`;
moreover, for a guard without session contracts (which receive the whole
session), `pre_execute` depends on the session only through those three
counters. -/
theorem C5_session_counters :
    (∀ (s : Session) (r : CallRecord) (n : String),
      (s.append_record r).attempt_count = s.attempt_count + 1 ∧
      (s.append_record r).execution_count =
        s.execution_count + (if r.executed then 1 else 0) ∧
      (s.append_record r).tool_execution_count n =
        s.tool_execution_count n + (if r.executed && r.tool_name == n then 1 else 0)) ∧
    (∀ (g : Guard) (env : Envelope) (s₁ s₂ : Session),
      g.session_contracts = [] →
      s₁.attempt_count = s₂.attempt_count →
      s₁.execution_count = s₂.execution_count →
      s₁.tool_execution_count env.tool_name = s₂.tool_execution_count env.tool_name →
      pre_execute g env s₁ = pre_execute g env s₂) := by
  constructor
  · intro s r n
    refine ⟨?_, ?_, ?_⟩
    · simp [Session.append_record, Session.attempt_count]
    · by_cases hr : r.executed <;>
        simp [Session.append_record, Session.execution_count, List.filter_append, hr]
    · by_cases hr : r.executed && r.tool_name == n <;>
        simp_all [Session.append_record, Session.tool_execution_count, List.filter_append]
  · intro g env s₁ s₂ hsc h1 h2 h3
    simp only [pre_execute, h1, h2, h3, Guard.get_session_contracts, hsc,
      runSessionContracts]

/-- Witness for C5: appending an executed `bash` record to a session with
one denied attempt, and counter-determination on a concrete guard. -/
theorem C5_session_counters_witness :
    (({ records := [⟨"bash", false⟩] } : Session).append_record ⟨"bash", true⟩).attempt_count = 2 ∧
    (({ records := [⟨"bash", false⟩] } : Session).append_record ⟨"bash", true⟩).execution_count = 1 ∧
    (({ records := [⟨"bash", false⟩] } : Session).append_record ⟨"bash", true⟩).tool_execution_count "bash" = 1 ∧
    pre_execute { limits := { max_attempts := 5, max_tool_calls := 5 } }
        { tool_name := "bash", tool_input := [] }
        { records := [⟨"bash", true⟩, ⟨"other", false⟩] } =
      pre_execute { limits := { max_attempts := 5, max_tool_calls := 5 } }
        { tool_name := "bash", tool_input := [] }
        { records := [⟨"other", false⟩, ⟨"bash", true⟩] } := by
  have h1 := (C5_session_counters.1 { records := [⟨"bash", false⟩] } ⟨"bash", true⟩ "bash")
  refine ⟨by simpa using h1.1, by simpa using h1.2.1, by simpa using h1.2.2, ?_⟩
  exact C5_session_counters.2
    { limits := { max_attempts := 5, max_tool_calls := 5 } }
    { tool_name := "bash", tool_input := [] }
    { records := [⟨"bash", true⟩, ⟨"other", false⟩] }
    { records := [⟨"other", false⟩, ⟨"bash", true⟩] }
    rfl (by decide) (by decide) (by decide)

/-- Claim C8, counterexample to the claimed behaviour: A failing
postcondition on a pure read (`side_effect = none`) does not produce a
retry warning: line 205 of `pipeline.py` evaluates `SideEffect.PURE`,
which the `SideEffect` enum does not define, so `post_execute` raises
`AttributeError` instead of returning a `PostDecision` — with the same
guard, a passing response returns normally with no warning. -/
theorem C8_failing_postcondition_raises :
    (post_execute
        { limits := { max_attempts := 10, max_tool_calls := 10 },
          postconditions :=
            [{ name := "result_nonempty",
               body := fun _ resp =>
                 if resp == "" then Verdict.fail "Empty result." else Verdict.pass }] }
        { tool_name := "query", tool_input := [], side_effect := SideEffect.none }
        "" true =
      Except.error sideEffectPureError) ∧
    (post_execute
        { limits := { max_attempts := 10, max_tool_calls := 10 },
          postconditions :=
            [{ name := "result_nonempty",
               body := fun _ resp =>
                 if resp == "" then Verdict.fail "Empty result." else Verdict.pass }] }
        { tool_name := "query", tool_input := [], side_effect := SideEffect.none }
        "some rows" true =
      Except.ok { tool_success := true, postconditions_passed := true, warnings := [],
                  contracts_evaluated :=
                    [{ name := "result_nonempty", type := "postcondition",
                       passed := true, message := "" }] }) := by
  exact ⟨rfl, rfl⟩

/-- Claim C10: Whenever `post_execute` returns a `PostDecision`, its
`postconditions_passed` field is the conjunction of the `passed` flags of
the evaluated postcondition records, vacuously `true` when no
postcondition was evaluated for the call. -/
theorem C10_postconditions_passed_conjunction (g : Guard) (env : Envelope)
    (response : String) (ts : Bool) (d : PostDecision)
    (h : post_execute g env response ts = .ok d) :
    d.postconditions_passed = d.contracts_evaluated.all (fun c => c.passed) ∧
    (d.contracts_evaluated = [] → d.postconditions_passed = true) := by
  unfold post_execute at h
  cases hrun : runPostconditions env response (g.get_postconditions env) [] with
  | error e => rw [hrun] at h; simp at h
  | ok ce =>
    rw [hrun] at h
    simp only [Except.ok.injEq] at h
    subst h
    constructor
    · cases ce <;> simp
    · intro he
      simp_all

/-- Witness for C10: a call with one evaluated, passing postcondition. -/
theorem C10_postconditions_passed_conjunction_witness :
    ({ tool_success := true, postconditions_passed := true, warnings := [],
       contracts_evaluated :=
         [{ name := "result_nonempty", type := "postcondition",
            passed := true, message := "" }] } : PostDecision).postconditions_passed =
      (({ tool_success := true, postconditions_passed := true, warnings := [],
          contracts_evaluated :=
            [{ name := "result_nonempty", type := "postcondition",
               passed := true, message := "" }] } : PostDecision).contracts_evaluated.all
        (fun c => c.passed)) := by
  exact (C10_postconditions_passed_conjunction
    { limits := { max_attempts := 10, max_tool_calls := 10 },
      postconditions :=
        [{ name := "result_nonempty",
           body := fun _ resp =>
             if resp == "" then Verdict.fail "Empty result." else Verdict.pass }] }
    { tool_name := "query", tool_input := [], side_effect := SideEffect.none }
    "some rows" true
    { tool_success := true, postconditions_passed := true, warnings := [],
      contracts_evaluated :=
        [{ name := "result_nonempty", type := "postcondition",
           passed := true, message := "" }] } rfl).1

/-- FIPS 180-4 known-answer check: the digest of the empty message. -/
theorem sha256Hex_empty_message : SHA256.sha256Hex [] =
    "e3b0c44298fc1c149afbf4c8996fb92427ae41e4649b934ca495991b7852b855" := by
  decide

/-- FIPS 180-4 known-answer check: the digest of the three bytes of
`"abc"`. -/
theorem sha256Hex_abc : SHA256.sha256Hex [97, 98, 99] =
    "ba7816bf8f01cfea414140de5dae2223b00361a396177a9cb410ff61f20015ad" := by
  decide

theorem hexWord32_length (w : Nat) : (SHA256.hexWord32 w).length = 8 := rfl

theorem sha256Hex_length (msg : List Nat) : (SHA256.sha256Hex msg).length = 64 := by
  simp [SHA256.sha256Hex, String.length_append, hexWord32_length]

theorem hexDigit_mem_hexDigits (n : Nat) : SHA256.hexDigit n ∈ SHA256.hexDigits := by
  have h : n % 16 < 16 := Nat.mod_lt _ (by omega)
  unfold SHA256.hexDigit
  set k := n % 16 with hk
  interval_cases k <;> decide

theorem hexWord32_chars (w : Nat) :
    ∀ c ∈ (SHA256.hexWord32 w).data, c ∈ SHA256.hexDigits := by
  intro c hc
  simp only [SHA256.hexWord32, String.mk, List.mem_map] at hc
  obtain ⟨x, _, rfl⟩ := hc
  exact hexDigit_mem_hexDigits x

theorem sha256Hex_chars (msg : List Nat) :
    ∀ c ∈ (SHA256.sha256Hex msg).data, c ∈ SHA256.hexDigits := by
  intro c hc
  simp only [SHA256.sha256Hex, String.data_append, List.mem_append] at hc
  rcases hc with ((((((h | h) | h) | h) | h) | h) | h) | h <;>
    exact hexWord32_chars _ c h

/-- Claim C6: Every accepted bundle's hash is the SHA-256 digest of the
exact raw bytes read, hex-encoded in lower case (every character a
lower-case hexadecimal digit) with 64 characters, and loading the same
bytes twice yields equal hashes. -/
theorem C6_bundle_hash_sha256 (parse : List Nat → Except String Value)
    (schema : Value → Except String Unit) (regexOk : String → Bool)
    (raw : List Nat) (r : List (String × Value) × BundleHash)
    (h : load_bundle parse schema regexOk raw = .ok r) :
    r.2.hex = SHA256.sha256Hex raw ∧
    r.2.hex.length = 64 ∧
    (∀ c ∈ r.2.hex.data, c ∈ SHA256.hexDigits) ∧
    (∀ r', load_bundle parse schema regexOk raw = .ok r' → r'.2 = r.2) := by
  have hhash : r.2 = compute_hash raw := by
    unfold load_bundle at h
    split at h
    · simp at h
    · split at h
      · simp at h
      · split at h
        · split at h
          · simp at h
          · split at h
            · simp at h
            · split at h
              · simp at h
              · split at h
                · simp at h
                · simp only [Except.ok.injEq] at h
                  subst h
                  rfl
        · simp at h
  refine ⟨?_, ?_, ?_, ?_⟩
  · rw [hhash]; rfl
  · rw [hhash]; exact sha256Hex_length raw
  · rw [hhash]; exact sha256Hex_chars raw
  · intro r' h'
    rw [h] at h'
    simp only [Except.ok.injEq] at h'
    rw [h']

/-- Witness for C6: the empty byte stream with a trivially accepting
parser and schema; the hash is the well-known digest of the empty
message. -/
theorem C6_bundle_hash_sha256_witness :
    load_bundle (fun _ => .ok (.vdict [])) (fun _ => .ok ()) (fun _ => true) [] =
      .ok ([], { hex := "e3b0c44298fc1c149afbf4c8996fb92427ae41e4649b934ca495991b7852b855" }) ∧
    ("e3b0c44298fc1c149afbf4c8996fb92427ae41e4649b934ca495991b7852b855" : String).length = 64 := by
  have h := C6_bundle_hash_sha256 (fun _ => .ok (.vdict [])) (fun _ => .ok ())
    (fun _ => true) []
    ([], { hex := "e3b0c44298fc1c149afbf4c8996fb92427ae41e4649b934ca495991b7852b855" })
    rfl
  exact ⟨rfl, h.2.1⟩

theorem validate_unique_ids_error_of_seen :
    ∀ (cs : List Value) (seen : List (Option Value)),
      (∃ c ∈ cs, ∃ x ∈ seen, optValBeq (idOf c) x = true) →
      ∃ e, validate_unique_ids cs seen = .error e
  | [], seen, h => by simp at h
  | c :: rest, seen, h => by
      by_cases hdup : seen.any (fun s => optValBeq (idOf c) s) = true
      · exact ⟨{ message := "Duplicate contract id: '" ++ optIdStr (idOf c) ++ "'" },
          by simp [validate_unique_ids, hdup]⟩
      · replace hdup : seen.any (fun s => optValBeq (idOf c) s) = false := by
          simpa using hdup
        obtain ⟨c', hc', x, hx, hbeq⟩ := h
        rcases List.mem_cons.mp hc' with rfl | hc'
        · exfalso
          have : seen.any (fun s => optValBeq (idOf c') s) = true :=
            List.any_eq_true.mpr ⟨x, hx, hbeq⟩
          simp_all
        · obtain ⟨e, he⟩ := validate_unique_ids_error_of_seen rest (idOf c :: seen)
            ⟨c', hc', x, List.mem_cons_of_mem _ hx, hbeq⟩
          exact ⟨e, by simp [validate_unique_ids, hdup, he]⟩

theorem validate_unique_ids_error_of_hasDup :
    ∀ (cs : List Value) (seen : List (Option Value)),
      hasDupIds (cs.map idOf) = true →
      ∃ e, validate_unique_ids cs seen = .error e
  | [], seen, h => by simp [hasDupIds] at h
  | c :: rest, seen, h => by
      by_cases hdup : seen.any (fun s => optValBeq (idOf c) s) = true
      · exact ⟨{ message := "Duplicate contract id: '" ++ optIdStr (idOf c) ++ "'" },
          by simp [validate_unique_ids, hdup]⟩
      · replace hdup : seen.any (fun s => optValBeq (idOf c) s) = false := by
          simpa using hdup
        rw [List.map_cons, hasDupIds, Bool.or_eq_true] at h
        rcases h with h | h
        · obtain ⟨y, hy, hbeq⟩ := List.any_eq_true.mp h
          obtain ⟨c', hc', rfl⟩ := List.mem_map.mp hy
          obtain ⟨e, he⟩ := validate_unique_ids_error_of_seen rest (idOf c :: seen)
            ⟨c', hc', idOf c, List.mem_cons_self _ _, hbeq⟩
          exact ⟨e, by simp [validate_unique_ids, hdup, he]⟩
        · obtain ⟨e, he⟩ := validate_unique_ids_error_of_hasDup rest (idOf c :: seen) h
          exact ⟨e, by simp [validate_unique_ids, hdup, he]⟩

theorem validate_pre_selectors_go_error :
    ∀ cs : List Value, cs.any contractIsPreWithOutputText = true →
      ∃ e, validate_pre_selectors.go cs = .error e
  | [], h => by simp at h
  | c :: rest, h => by
      rw [List.any_cons, Bool.or_eq_true] at h
      by_cases hc : contractIsPreWithOutputText c = true
      · unfold contractIsPreWithOutputText at hc
        refine ⟨preSelectorError c, ?_⟩
        unfold validate_pre_selectors.go
        cases htype : lookupField (contractFields c) "type" with
        | none => rw [htype] at hc; simp at hc
        | some tv =>
          rw [htype] at hc
          cases tv with
          | vstr t =>
            simp only at hc ⊢
            by_cases ht : t = "pre"
            · subst ht
              rw [if_pos rfl] at hc ⊢
              cases hwhen : lookupField (contractFields c) "when" with
              | none => rw [hwhen] at hc; simp at hc
              | some w =>
                rw [hwhen] at hc
                have hc' : (pyTruthy w && expressionHasSelector "output.text" w) = true := hc
                show (if (pyTruthy w && expressionHasSelector "output.text" w) = true then
                    Except.error (preSelectorError c)
                  else validate_pre_selectors.go rest) = Except.error (preSelectorError c)
                rw [if_pos hc']
            · rw [if_neg ht] at hc; simp at hc
          | vnull => simp at hc
          | vbool b => simp at hc
          | vnum q => simp at hc
          | vlist vs => simp at hc
          | vdict fs => simp at hc
      · replace hc : contractIsPreWithOutputText c = false := by simpa using hc
        have hrest : rest.any contractIsPreWithOutputText = true := by
          rcases h with h | h
          · rw [hc] at h; cases h
          · exact h
        obtain ⟨e, he⟩ := validate_pre_selectors_go_error rest hrest
        refine ⟨e, ?_⟩
        unfold contractIsPreWithOutputText at hc
        unfold validate_pre_selectors.go
        cases htype : lookupField (contractFields c) "type" with
        | none => exact he
        | some tv =>
          rw [htype] at hc
          cases tv with
          | vstr t =>
            simp only at hc ⊢
            by_cases ht : t = "pre"
            · subst ht
              rw [if_pos rfl] at hc ⊢
              cases hwhen : lookupField (contractFields c) "when" with
              | none => exact he
              | some w =>
                rw [hwhen] at hc
                have hc' : (pyTruthy w && expressionHasSelector "output.text" w) = false := hc
                show (if (pyTruthy w && expressionHasSelector "output.text" w) = true then
                    Except.error (preSelectorError c)
                  else validate_pre_selectors.go rest) = Except.error e
                rw [if_neg (by simp [hc'])]
                exact he
            · rw [if_neg ht]
              exact he
          | vnull => exact he
          | vbool b => exact he
          | vnum q => exact he
          | vlist vs => exact he
          | vdict fs => exact he

/-- Claim C7: On every failing input — oversized input, YAML parse
failure, non-mapping document, schema violation, duplicate contract id,
invalid regex pattern, or an `output.text` selector inside a `type: pre`
contract — `load_bundle` produces a single `ConfigError` and returns no
partial bundle. -/
theorem C7_loader_failures (parse : List Nat → Except String Value)
    (schema : Value → Except String Unit) (regexOk : String → Bool) (raw : List Nat)
    (hfail :
      raw.length > MAX_BUNDLE_SIZE ∨
      (∃ m, parse raw = .error m) ∨
      (∃ d, parse raw = .ok d ∧ ∀ fs, d ≠ .vdict fs) ∨
      (∃ fs, parse raw = .ok (.vdict fs) ∧
        ((∃ m, schema (.vdict fs) = .error m) ∨
         hasDupIds ((contractsOf fs).map idOf) = true ∨
         (∃ er, validate_regexes regexOk fs = .error er) ∨
         (contractsOf fs).any contractIsPreWithOutputText = true))) :
    (∃ e, load_bundle parse schema regexOk raw = .error e) ∧
    (∀ r, load_bundle parse schema regexOk raw ≠ .ok r) := by
  have hmain : ∃ e, load_bundle parse schema regexOk raw = .error e := by
    by_cases hsize : raw.length > MAX_BUNDLE_SIZE
    · exact ⟨{ message := "Bundle file too large (" ++ toString raw.length ++
        " bytes, max " ++ toString MAX_BUNDLE_SIZE ++ ")" }, by simp [load_bundle, hsize]⟩
    · rcases hfail with h | ⟨m, hp⟩ | ⟨d, hp, hnd⟩ | ⟨fs, hp, hrest⟩
      · exact absurd h hsize
      · exact ⟨{ message := "YAML parse error: " ++ m }, by simp [load_bundle, hsize, hp]⟩
      · refine ⟨{ message := "YAML document must be a mapping" }, ?_⟩
        cases d with
        | vdict fs => exact absurd rfl (hnd fs)
        | vnull => simp [load_bundle, hsize, hp]
        | vbool b => simp [load_bundle, hsize, hp]
        | vnum q => simp [load_bundle, hsize, hp]
        | vstr s => simp [load_bundle, hsize, hp]
        | vlist vs => simp [load_bundle, hsize, hp]
      · simp only [load_bundle, hsize, if_false, hp]
        rcases hrest with ⟨m, hs⟩ | hdup | ⟨er, hr⟩ | hpre
        · exact ⟨{ message := "Schema validation failed: " ++ m }, by simp [hs]⟩
        · cases hs : schema (.vdict fs) with
          | error m => exact ⟨{ message := "Schema validation failed: " ++ m }, by simp [hs]⟩
          | ok u =>
            obtain ⟨e, he⟩ := validate_unique_ids_error_of_hasDup (contractsOf fs) [] hdup
            exact ⟨e, by simp [hs, he]⟩
        · cases hs : schema (.vdict fs) with
          | error m => exact ⟨{ message := "Schema validation failed: " ++ m }, by simp [hs]⟩
          | ok u =>
            cases hu : validate_unique_ids (contractsOf fs) [] with
            | error e => exact ⟨e, by simp [hs, hu]⟩
            | ok u' => exact ⟨er, by simp [hs, hu, hr]⟩
        · cases hs : schema (.vdict fs) with
          | error m => exact ⟨{ message := "Schema validation failed: " ++ m }, by simp [hs]⟩
          | ok u =>
            cases hu : validate_unique_ids (contractsOf fs) [] with
            | error e => exact ⟨e, by simp [hs, hu]⟩
            | ok u' =>
              cases hr : validate_regexes regexOk fs with
              | error e => exact ⟨e, by simp [hs, hu, hr]⟩
              | ok u'' =>
                obtain ⟨e, he⟩ := validate_pre_selectors_go_error (contractsOf fs) hpre
                exact ⟨e, by simp [hs, hu, hr, validate_pre_selectors, he]⟩
  refine ⟨hmain, ?_⟩
  intro r hok
  obtain ⟨e, he⟩ := hmain
  rw [hok] at he
  cases he

/-- Witness for C7: a bundle with a duplicated contract id `"a"` is
rejected. -/
theorem C7_loader_failures_witness :
    ∃ e, load_bundle
        (fun _ => .ok (.vdict [("contracts",
          .vlist [.vdict [("id", .vstr "a")], .vdict [("id", .vstr "a")]])]))
        (fun _ => .ok ()) (fun _ => true) [] = .error e := by
  refine (C7_loader_failures
    (fun _ => .ok (.vdict [("contracts",
      .vlist [.vdict [("id", .vstr "a")], .vdict [("id", .vstr "a")]])]))
    (fun _ => .ok ()) (fun _ => true) [] ?_).1
  refine Or.inr (Or.inr (Or.inr ⟨_, rfl, Or.inr (Or.inl ?_)⟩))
  decide

end Callguard
